import Mathlib

/-!
Shallow embedding of the relational-integrity core of `src/run.py`
(a terminal tool keeping three spreadsheet tables - Children, Pets,
Owners - consistent under insert, link, relink and delete).

Modelling conventions:
* a cell is a `String`; a row is a `List String`; a table is the ordered
  list of rows returned by `get_all_values` (the header row included);
* the storage backend is a `Backend`: the three tables plus a failure
  schedule `fails : Nat -> Bool` (call number `k` raises iff `fails k`)
  and counters of calls made and successful writes;
* the interactive console is a finite script `List String` of input
  lines; a prompt that runs out of script is a distinguished outcome
  (`outOfInput`, or `crash` where Python would raise an uncaught
  EOFError);
* Python `(row, index)` / `(None, None)` / `(None, -1)` locator results
  are modelled verbatim as `Option Row × Option Int`;
* integer cells are written back as their decimal rendering
  (`Nat.repr`), which is what `get_all_values` yields for a cell written
  as a Python `int`;
* character-level string functions (`isdigit`, `lower`, `capitalize`)
  are modelled on ASCII content, the scope of the specification.
-/

/-- A spreadsheet row: the list of its cell strings. -/
abbrev Row : Type := List String

/-- A table as returned by `get_all_values`: all rows, header first. -/
abbrev Table : Type := List Row

/-- Python `s.isdigit()` (ASCII scope): `s` is non-empty and every
character is a decimal digit. -/
def pyIsDigit (s : String) : Bool :=
  !s.data.isEmpty && s.data.all Char.isDigit

/-- Python `int(s)` on a digit string: the decimal value of `s`. -/
def pyStrNat (s : String) : Nat :=
  s.data.foldl (fun n c => n * 10 + (c.toNat - 48)) 0

/-- Python `s.capitalize()`: first character uppercased, the rest
lowercased (ASCII scope). -/
def pyCapitalize (s : String) : String :=
  match s.data with
  | [] => ""
  | c :: cs => ⟨c.toUpper :: cs.map Char.toLower⟩

/-- Python `s.strip()` (ASCII whitespace scope): drop leading and
trailing whitespace characters. -/
def pyStrip (s : String) : String :=
  ⟨((s.data.dropWhile Char.isWhitespace).reverse.dropWhile
      Char.isWhitespace).reverse⟩

/-- Python `s.lower()` (ASCII scope). -/
def pyLower (s : String) : String :=
  ⟨s.data.map Char.toLower⟩

/-- Python truthiness of an optional row (`if row:`): `None` and the
empty list are falsy. -/
def pyTruthyRow (o : Option Row) : Bool :=
  match o with
  | none => false
  | some r => !r.isEmpty

/-- Python truthiness of an optional integer (`if index:`): `None` and
`0` are falsy; in particular the error sentinel `-1` is truthy. -/
def pyTruthyInt (o : Option Int) : Bool :=
  match o with
  | none => false
  | some i => i != 0

/-- `validate_integer` (run.py 110-114): all characters are digits. -/
def validate_integer (input_str : String) : Bool :=
  pyIsDigit input_str

/-- `validate_range` (run.py 117-124): a digit string whose value lies
in the inclusive range. -/
def validate_range (input_str : String) (min_val max_val : Int) : Bool :=
  if !pyIsDigit input_str then false
  else min_val ≤ (pyStrNat input_str : Int) && (pyStrNat input_str : Int) ≤ max_val

/-- `validate_input` (run.py 86-107): read lines until one is non-empty
after trimming and accepted by the validator; return it with the rest of
the script, or `none` when the script runs out. -/
def validate_input (validation_func : String → Bool) :
    List String → Option (String × List String)
  | [] => none
  | s :: rest =>
    let user_input := pyStrip s
    if user_input.isEmpty then validate_input validation_func rest
    else if validation_func user_input then some (user_input, rest)
    else validate_input validation_func rest

/-- `confirm_action` (run.py 127-137): read lines until one trims and
lowercases to "y" or "n"; `none` when the script runs out (Python would
raise EOFError at the exhausted prompt). -/
def confirm_action : List String → Option (Bool × List String)
  | [] => none
  | s :: rest =>
    let choice := pyLower (pyStrip s)
    if choice = "y" then some (true, rest)
    else if choice = "n" then some (false, rest)
    else confirm_action rest

/-- The loop of `get_next_id` (run.py 69-74): fold the running maximum
over data rows whose first cell is a digit string. -/
def maxIdLoop : List Row → Nat → Nat
  | [], max_id => max_id
  | row :: rest, max_id =>
    match row with
    | [] => maxIdLoop rest max_id
    | c :: _ =>
      if pyIsDigit c then maxIdLoop rest (Nat.max max_id (pyStrNat c))
      else maxIdLoop rest max_id

/-- `get_next_id` (run.py 50-83) applied to the outcome of the
worksheet scan: `none` models the scan raising (the function then
returns the `None` sentinel); otherwise 1 for a header-only table, else
1 + the maximum parseable ID. -/
def get_next_id (scan : Option Table) : Option Nat :=
  match scan with
  | none => none
  | some all_values =>
    let data_rows := all_values.drop 1
    if data_rows.isEmpty then some 1
    else some (maxIdLoop data_rows 0 + 1)

/-- Guard of `find_row_by_id` (run.py 161): the row is non-empty and
its first cell equals the searched string verbatim. -/
def matchId (id_str : String) (row : Row) : Bool :=
  match row with
  | [] => false
  | c :: _ => c == id_str

/-- Guard of `find_row_by_pet_id` (run.py 233): the row has at least
two cells and its second cell equals the searched string verbatim. -/
def matchPet (pet_id_str : String) (row : Row) : Bool :=
  match row with
  | _ :: c :: _ => c == pet_id_str
  | _ => false

/-- The shared scanning loop of the three locators (run.py 159-164,
192-198, 230-236): first row accepted by the guard, with its 1-based
position (the accumulator holds the 0-based index of the head row). -/
def findLoop (pred : Row → Bool) : List Row → Int → Option Row × Option Int
  | [], _ => (none, none)
  | row :: rest, index =>
    if pred row then (some row, some (index + 1))
    else findLoop pred rest (index + 1)

/-- `find_row_by_id` (run.py 140-174): reject non-digit IDs without a
backend call; `scan = none` models `get_all_values` raising, yielding
the `(None, -1)` sentinel. -/
def find_row_by_id (scan : Option Table) (id_str : String) :
    Option Row × Option Int :=
  if !pyIsDigit id_str then (none, none)
  else
    match scan with
    | none => (none, some (-1))
    | some all_values => findLoop (matchId id_str) all_values 0

/-- `find_row_by_child_name` (run.py 177-208): no format guard; first
row whose first cell equals the full name. -/
def find_row_by_child_name (scan : Option Table) (full_name : String) :
    Option Row × Option Int :=
  match scan with
  | none => (none, some (-1))
  | some all_values => findLoop (matchId full_name) all_values 0

/-- `find_row_by_pet_id` (run.py 211-245): reject non-digit IDs without
a backend call; first row whose second cell equals the pet ID. -/
def find_row_by_pet_id (scan : Option Table) (pet_id_str : String) :
    Option Row × Option Int :=
  if !pyIsDigit pet_id_str then (none, none)
  else
    match scan with
    | none => (none, some (-1))
    | some all_values => findLoop (matchPet pet_id_str) all_values 0

/-- Overwrite the cell at 0-based position `j` of a row, padding with
empty cells when the row is shorter (the spreadsheet grid semantics of
`update_cell` for a cell beyond the stored row). -/
def setCell (row : Row) : Nat → String → Row
  | 0, v =>
    match row with
    | [] => [v]
    | _ :: tl => v :: tl
  | j + 1, v =>
    match row with
    | [] => "" :: setCell [] j v
    | c :: tl => c :: setCell tl j v

/-- Overwrite one cell of a table, rows and columns 0-based; a row
index past the end leaves the table unchanged (unreachable in the
program, which only updates positions a locator just returned). -/
def updateCell0 : Table → Nat → Nat → String → Table
  | [], _, _, _ => []
  | row :: rest, 0, j, v => setCell row j v :: rest
  | row :: rest, i + 1, j, v => row :: updateCell0 rest i j v

/-- `worksheet.update_cell(row, col, value)` with the 1-based positions
the API takes. -/
def updateCellT (t : Table) (row col : Int) (v : String) : Table :=
  if row < 1 ∨ col < 1 then t
  else updateCell0 t (row - 1).toNat (col - 1).toNat v

/-- `worksheet.delete_rows(pos)` with its 1-based position: remove the
row, later rows shifting up. -/
def eraseRowT (t : Table) (row : Int) : Table :=
  if row < 1 then t else t.eraseIdx (row - 1).toNat

/-- The three worksheets resolved at bootstrap (run.py 35-37). -/
inductive Sheet : Type
  | children
  | pets
  | owners
deriving DecidableEq

/-- The state of the spreadsheet: the three tables. -/
structure DB : Type where
  children : Table
  pets : Table
  owners : Table
deriving DecidableEq

/-- The table currently stored for a worksheet. -/
def DB.get (db : DB) : Sheet → Table
  | .children => db.children
  | .pets => db.pets
  | .owners => db.owners

/-- Replace the table stored for a worksheet. -/
def DB.set (db : DB) : Sheet → Table → DB
  | .children, t => { db with children := t }
  | .pets, t => { db with pets := t }
  | .owners, t => { db with owners := t }

/-- The backend collaborator: the spreadsheet state, a schedule saying
which call numbers raise, the number of calls made so far, and the
number of successful write calls (append, update, delete) performed. -/
structure Backend : Type where
  db : DB
  fails : Nat → Bool
  calls : Nat
  writes : Nat

/-- One backend call: whether it raises, and the state with the call
counted. -/
def stepCall (b : Backend) : Bool × Backend :=
  (b.fails b.calls, { b with calls := b.calls + 1 })

/-- `worksheet.get_all_values()`: `none` when the call raises. -/
def scanAll (b : Backend) (s : Sheet) : Option Table × Backend :=
  let (f, b') := stepCall b
  if f then (none, b') else (some (b'.db.get s), b')

/-- `worksheet.append_row(row)`: `false` when the call raises, in which
case the state is unchanged. -/
def appendRowB (b : Backend) (s : Sheet) (r : Row) : Bool × Backend :=
  let (f, b') := stepCall b
  if f then (false, b')
  else
    (true, { b' with db := b'.db.set s (b'.db.get s ++ [r]),
                     writes := b'.writes + 1 })

/-- `worksheet.update_cell(row, col, value)` as a backend call. -/
def updateCellB (b : Backend) (s : Sheet) (row col : Int) (v : String) :
    Bool × Backend :=
  let (f, b') := stepCall b
  if f then (false, b')
  else
    (true, { b' with db := b'.db.set s (updateCellT (b'.db.get s) row col v),
                     writes := b'.writes + 1 })

/-- `worksheet.delete_rows(pos)` as a backend call. -/
def deleteRowB (b : Backend) (s : Sheet) (row : Int) : Bool × Backend :=
  let (f, b') := stepCall b
  if f then (false, b')
  else
    (true, { b' with db := b'.db.set s (eraseRowT (b'.db.get s) row),
                     writes := b'.writes + 1 })

/-- `find_row_by_id` as the caller runs it: the backend scan happens
only after the digit guard passed (run.py 152-157). -/
def findByIdB (b : Backend) (s : Sheet) (id_str : String) :
    (Option Row × Option Int) × Backend :=
  if !pyIsDigit id_str then ((none, none), b)
  else
    let (sc, b') := scanAll b s
    (find_row_by_id sc id_str, b')

/-- `find_row_by_child_name` as the caller runs it: always scans. -/
def findByNameB (b : Backend) (s : Sheet) (full_name : String) :
    (Option Row × Option Int) × Backend :=
  let (sc, b') := scanAll b s
  (find_row_by_child_name sc full_name, b')

/-- `find_row_by_pet_id` as the caller runs it: the backend scan
happens only after the digit guard passed (run.py 223-228). -/
def findByPetB (b : Backend) (s : Sheet) (pet_id_str : String) :
    (Option Row × Option Int) × Backend :=
  if !pyIsDigit pet_id_str then ((none, none), b)
  else
    let (sc, b') := scanAll b s
    (find_row_by_pet_id sc pet_id_str, b')

/-- Outcome of `add_child` / `add_pet`. -/
inductive AddOutcome : Type
  | success (id : Nat)
  | emptyName
  | idError
  | appendError
  | outOfInput
deriving DecidableEq

/-- `add_child` (run.py 250-300): read first and last name raw (trim
and capitalize, abort on empty), read a 5-18 age through the
validation loop, allocate the next ID (abort on the `None` sentinel)
and append one row. -/
def add_child (b : Backend) (script : List String) :
    AddOutcome × Backend × List String :=
  match script with
  | [] => (.outOfInput, b, [])
  | l1 :: script =>
    let first_name := pyCapitalize (pyStrip l1)
    if first_name.isEmpty then (.emptyName, b, script)
    else
      match script with
      | [] => (.outOfInput, b, [])
      | l2 :: script =>
        let last_name := pyCapitalize (pyStrip l2)
        if last_name.isEmpty then (.emptyName, b, script)
        else
          match validate_input (fun x => validate_range x 5 18) script with
          | none => (.outOfInput, b, [])
          | some (age_str, script) =>
            let sres := scanAll b .children
            match get_next_id sres.1 with
            | none => (.idError, sres.2, script)
            | some next_id =>
              let row := [Nat.repr next_id, first_name, last_name,
                          Nat.repr (pyStrNat age_str)]
              let ares := appendRowB sres.2 .children row
              if ares.1 then (.success next_id, ares.2, script)
              else (.appendError, ares.2, script)

/-- `add_pet` (run.py 303-363): nickname raw (abort on empty), 0-12
age and a p/k type selector through the validation loop, selector
mapped to the canonical species string, ID allocated, one row
appended. -/
def add_pet (b : Backend) (script : List String) :
    AddOutcome × Backend × List String :=
  match script with
  | [] => (.outOfInput, b, [])
  | l1 :: script =>
    let nickname := pyCapitalize (pyStrip l1)
    if nickname.isEmpty then (.emptyName, b, script)
    else
      match validate_input (fun x => validate_range x 0 12) script with
      | none => (.outOfInput, b, [])
      | some (age_str, script) =>
        match validate_input (fun x => pyLower x = "p" || pyLower x = "k") script with
        | none => (.outOfInput, b, [])
        | some (type_short, script) =>
          let pet_type := if pyLower type_short = "p" then "puppy" else "kitty"
          let sres := scanAll b .pets
          match get_next_id sres.1 with
          | none => (.idError, sres.2, script)
          | some next_id =>
            let row := [Nat.repr next_id, nickname,
                        Nat.repr (pyStrNat age_str), pet_type]
            let ares := appendRowB sres.2 .pets row
            if ares.1 then (.success next_id, ares.2, script)
            else (.appendError, ares.2, script)

/-- Outcome of `link_child_pet`. -/
inductive LinkOutcome : Type
  | success
  | cancelled
  | findError
  | clearTypeError
  | updateNoneIndex
  | writeError
  | crash
  | outOfInput
deriving DecidableEq

/-- Result of one of the two resolve-until-found loops of
`link_child_pet`. -/
inductive ResolveRes : Type
  | found (id_str : String) (row : Row)
  | aborted (out : LinkOutcome)
deriving DecidableEq

/-- The child resolution loop of `link_child_pet` (run.py 371-396):
each iteration reads an ID through the validation loop (its re-prompting
fused into this recursion so the whole loop is structural on the
script), runs the locator, aborts on the error sentinel, exits on a
truthy row and otherwise asks again. -/
def linkResolve (s : Sheet) (b : Backend) :
    List String → ResolveRes × Backend × List String
  | [] => (.aborted .outOfInput, b, [])
  | line :: script =>
    let user_input := pyStrip line
    if user_input.isEmpty then linkResolve s b script
    else if validate_integer user_input then
      let (res, b') := findByIdB b s user_input
      if res.2 = some (-1) then (.aborted .findError, b', script)
      else if pyTruthyRow res.1 then
        match res.1 with
        | some row => (.found user_input row, b', script)
        | none => (.aborted .findError, b', script)
      else linkResolve s b' script
    else linkResolve s b script

/-- Outcome of the advisory pre-check phase of `link_child_pet`. -/
inductive PreRes : Type
  | go
  | refused
  | eof
deriving DecidableEq

/-- Tail of the pre-check (run.py 439-446): the advisory lookup of the
pet in Owners; its result (including the error sentinel, which this
caller discards) never stops the operation. -/
def linkPetClaimCheck (b : Backend) (pet_id_str : String)
    (script : List String) : PreRes × Backend × List String :=
  let (_, b) := findByPetB b .owners pet_id_str
  (.go, b, script)

/-- The pre-confirmation check phase of `link_child_pet`
(run.py 424-450, one `try` block): look up an existing link by child
name discarding the position sentinel; when a truthy row has a
non-empty pet cell, ask for confirmation to replace (refusal aborts; an
exhausted script is the EOFError the enclosing `except` swallows,
abandoning the rest of the phase); then the advisory pet-claim
lookup. -/
def linkPrecheck (b : Backend) (child_name pet_id_str : String)
    (script : List String) : PreRes × Backend × List String :=
  let (res, b) := findByNameB b .owners child_name
  match res.1 with
  | some (_ :: c :: _) =>
    if c.isEmpty then linkPetClaimCheck b pet_id_str script
    else
      match confirm_action script with
      | none => (.eof, b, [])
      | some (false, script) => (.refused, b, script)
      | some (true, script) => linkPetClaimCheck b pet_id_str script
  | _ => linkPetClaimCheck b pet_id_str script

/-- The write phase of `link_child_pet` (run.py 458-504, after the
final confirmation): re-resolve the Owners row by child name (abort on
its sentinel), re-resolve the row holding the pet (its sentinel is only
tested for truthiness: `-1` enters the clearing branch and the `None`
row then raises the TypeError the `except` catches), clear the other
row when its position differs, then update the child row cell or append
a new link row. -/
def linkWritePhase (b : Backend) (child_name pet_id_str : String) :
    LinkOutcome × Backend :=
  let r1 := findByNameB b .owners child_name
  let owner_row_data := r1.1.1
  let owner_row_index := r1.1.2
  if owner_row_index = some (-1) then (.findError, r1.2)
  else
    let r2 := findByPetB r1.2 .owners pet_id_str
    let prev_owner_row := r2.1.1
    let prev_owner_index := r2.1.2
    let afterClear : Option LinkOutcome × Backend :=
      if pyTruthyInt prev_owner_index && prev_owner_index != owner_row_index then
        match prev_owner_row, prev_owner_index with
        | some (_ :: _), some k =>
          let u := updateCellB r2.2 .owners k 2 ""
          if u.1 then (none, u.2) else (some .writeError, u.2)
        | _, _ => (some .clearTypeError, r2.2)
      else (none, r2.2)
    match afterClear.1 with
    | some out => (out, afterClear.2)
    | none =>
      if pyTruthyRow owner_row_data then
        match owner_row_index with
        | some k =>
          let u := updateCellB afterClear.2 .owners k 2 (Nat.repr (pyStrNat pet_id_str))
          if u.1 then (.success, u.2) else (.writeError, u.2)
        | none => (.updateNoneIndex, afterClear.2)
      else
        let u := appendRowB afterClear.2 .owners
          [child_name, Nat.repr (pyStrNat pet_id_str)]
        if u.1 then (.success, u.2) else (.writeError, u.2)

/-- `link_child_pet` (run.py 366-507): resolve child and pet through
the retry loops (the child name and the shown fields index into the
rows, an uncaught IndexError - `crash` - on short rows), run the
pre-check phase, require the final confirmation and run the write
phase. -/
def link_child_pet (b : Backend) (script : List String) :
    LinkOutcome × Backend × List String :=
  match linkResolve .children b script with
  | (.aborted out, b, script) => (out, b, script)
  | (.found _ child_data, b, script) =>
    match child_data with
    | _ :: first :: last :: _ :: _ =>
      let child_name := first ++ " " ++ last
      match linkResolve .pets b script with
      | (.aborted out, b, script) => (out, b, script)
      | (.found pet_id_str pet_data, b, script) =>
        match pet_data with
        | _ :: _ :: _ :: _ :: _ =>
          match linkPrecheck b child_name pet_id_str script with
          | (.refused, b, script) => (.cancelled, b, script)
          | (.eof, b, _) => (.crash, b, [])
          | (.go, b, script) =>
            match confirm_action script with
            | none => (.crash, b, [])
            | some (false, script) => (.cancelled, b, script)
            | some (true, script) =>
              let (out, b) := linkWritePhase b child_name pet_id_str
              (out, b, script)
        | _ => (.crash, b, script)
    | _ => (.crash, b, script)

/-- Outcome of `search_by_child`. -/
inductive SearchChildOutcome : Type
  | foundLink (petId petName petType petAge : String)
  | notLinked
  | inconsistent (petId : String)
  | notFound
  | findError
  | unexpectedErr
  | crash
  | outOfInput
deriving DecidableEq

/-- `search_by_child` (run.py 510-588): resolve the child by ID, build
the full name (uncaught IndexError on short rows), look up the Owners
row by name, and when its pet cell is non-empty resolve the pet;
a missing pet is the data-inconsistency warning, a missing or empty
link row is the informational not-linked report. -/
def search_by_child (b : Backend) (script : List String) :
    SearchChildOutcome × Backend × List String :=
  match validate_input validate_integer script with
  | none => (.outOfInput, b, [])
  | some (child_id_str, script) =>
    let c := findByIdB b .children child_id_str
    if c.1.2 = some (-1) then (.findError, c.2, script)
    else if !pyTruthyRow c.1.1 then (.notFound, c.2, script)
    else
      match c.1.1 with
      | some (_ :: first :: last :: _ :: _) =>
        let child_name := first ++ " " ++ last
        let o := findByNameB c.2 .owners child_name
        if o.1.2 = some (-1) then (.findError, o.2, script)
        else
          match o.1.1 with
          | some (_ :: pet_cell :: _) =>
            if pet_cell.isEmpty then (.notLinked, o.2, script)
            else
              let p := findByIdB o.2 .pets pet_cell
              if p.1.2 = some (-1) then (.findError, p.2, script)
              else if pyTruthyRow p.1.1 then
                match p.1.1 with
                | some (_ :: n :: a :: ty :: _) =>
                  (.foundLink pet_cell n ty a, p.2, script)
                | _ => (.unexpectedErr, p.2, script)
              else (.inconsistent pet_cell, p.2, script)
          | _ => (.notLinked, o.2, script)
      | _ => (.crash, c.2, script)

/-- Outcome of `search_by_pet`. -/
inductive SearchPetOutcome : Type
  | foundLink (childName childId childAge : String)
  | notLinked
  | inconsistent (childName : String)
  | notFound
  | findError
  | unexpectedErr
  | crash
  | outOfInput
deriving DecidableEq

/-- Result of the Children scan inside `search_by_pet`. -/
inductive KidRes : Type
  | hit (row : Row)
  | missing
  | raised
deriving DecidableEq

/-- The loop of run.py 642-656: first non-empty Children data row whose
reconstructed full name matches; a non-empty row with fewer than three
cells is the IndexError the enclosing `except` catches. -/
def searchKids (child_name : String) : List Row → KidRes
  | [] => .missing
  | row :: rest =>
    match row with
    | [] => searchKids child_name rest
    | [_] => .raised
    | [_, _] => .raised
    | _ :: a :: c :: _ =>
      if (a ++ " " ++ c) == child_name then .hit row
      else searchKids child_name rest

/-- `search_by_pet` (run.py 591-681): resolve the pet by ID, look up
the Owners row by pet ID, and when found scan the whole Children table
matching reconstructed full names against the link name; a missing
child is the data-inconsistency warning. -/
def search_by_pet (b : Backend) (script : List String) :
    SearchPetOutcome × Backend × List String :=
  match validate_input validate_integer script with
  | none => (.outOfInput, b, [])
  | some (pet_id_str, script) =>
    let p := findByIdB b .pets pet_id_str
    if p.1.2 = some (-1) then (.findError, p.2, script)
    else if !pyTruthyRow p.1.1 then (.notFound, p.2, script)
    else
      match p.1.1 with
      | some (_ :: _ :: _ :: _ :: _) =>
        let o := findByPetB p.2 .owners pet_id_str
        if o.1.2 = some (-1) then (.findError, o.2, script)
        else if pyTruthyRow o.1.1 then
          match o.1.1 with
          | some (child_name :: _) =>
            let sc := scanAll o.2 .children
            match sc.1 with
            | none => (.findError, sc.2, script)
            | some all_children =>
              match searchKids child_name (all_children.drop 1) with
              | .hit row =>
                match row with
                | cid :: _ :: _ :: age :: _ =>
                  (.foundLink child_name cid age, sc.2, script)
                | _ => (.unexpectedErr, sc.2, script)
              | .missing => (.inconsistent child_name, sc.2, script)
              | .raised => (.unexpectedErr, sc.2, script)
          | _ => (.crash, o.2, script)
        else (.notLinked, o.2, script)
      | _ => (.crash, p.2, script)

/-- Outcome of `delete_child` / `delete_pet`. -/
inductive DelOutcome : Type
  | success
  | successNoLink
  | warnedSuccess
  | cancelled
  | notFound
  | findError
  | primaryError
  | secondaryError
  | noneIndex
  | crash
  | outOfInput
deriving DecidableEq

/-- `delete_child` (run.py 684-758): resolve by ID (warn-and-return on
not found, abort on the sentinel), confirm, delete the Children row,
then locate the Owners row by full name: its sentinel demotes to a
warning with the primary delete kept (`warnedSuccess`); a found row is
deleted entirely; otherwise nothing else happens. -/
def delete_child (b : Backend) (script : List String) :
    DelOutcome × Backend × List String :=
  match validate_input validate_integer script with
  | none => (.outOfInput, b, [])
  | some (child_id_str, script) =>
    let c := findByIdB b .children child_id_str
    if c.1.2 = some (-1) then (.findError, c.2, script)
    else if !pyTruthyRow c.1.1 then (.notFound, c.2, script)
    else
      match c.1.1 with
      | some (_ :: first :: last :: _ :: _) =>
        let child_name := first ++ " " ++ last
        match confirm_action script with
        | none => (.crash, c.2, [])
        | some (false, script) => (.cancelled, c.2, script)
        | some (true, script) =>
          match c.1.2 with
          | some child_row_index =>
            let d := deleteRowB c.2 .children child_row_index
            if !d.1 then (.primaryError, d.2, script)
            else
              let o := findByNameB d.2 .owners child_name
              if o.1.2 = some (-1) then (.warnedSuccess, o.2, script)
              else if pyTruthyRow o.1.1 then
                match o.1.2 with
                | some owner_row_index =>
                  let d2 := deleteRowB o.2 .owners owner_row_index
                  if d2.1 then (.success, d2.2, script)
                  else (.secondaryError, d2.2, script)
                | none => (.noneIndex, o.2, script)
              else (.successNoLink, o.2, script)
          | none => (.noneIndex, c.2, script)
      | _ => (.crash, c.2, script)

/-- `delete_pet` (run.py 761-837): resolve by ID, confirm, delete the
Pets row, then locate the Owners row by pet ID: its sentinel demotes to
a warning with the primary delete kept; a found row has only its pet
cell cleared (the row survives); otherwise nothing else happens. -/
def delete_pet (b : Backend) (script : List String) :
    DelOutcome × Backend × List String :=
  match validate_input validate_integer script with
  | none => (.outOfInput, b, [])
  | some (pet_id_str, script) =>
    let p := findByIdB b .pets pet_id_str
    if p.1.2 = some (-1) then (.findError, p.2, script)
    else if !pyTruthyRow p.1.1 then (.notFound, p.2, script)
    else
      match p.1.1 with
      | some (_ :: _ :: _ :: _ :: _) =>
        match confirm_action script with
        | none => (.crash, p.2, [])
        | some (false, script) => (.cancelled, p.2, script)
        | some (true, script) =>
          match p.1.2 with
          | some pet_row_index =>
            let d := deleteRowB p.2 .pets pet_row_index
            if !d.1 then (.primaryError, d.2, script)
            else
              let o := findByPetB d.2 .owners pet_id_str
              if o.1.2 = some (-1) then (.warnedSuccess, o.2, script)
              else if pyTruthyRow o.1.1 then
                match o.1.2 with
                | some owner_row_index =>
                  let u := updateCellB o.2 .owners owner_row_index 2 ""
                  if u.1 then (.success, u.2, script)
                  else (.secondaryError, u.2, script)
                | none => (.noneIndex, o.2, script)
              else (.successNoLink, o.2, script)
          | none => (.noneIndex, p.2, script)
      | _ => (.crash, p.2, script)

/-! ### Decimal rendering: the digits of `Nat.repr` and its round trip -/

/-- The most-significant-first digit characters of `n`, the list
`Nat.toDigits 10` builds with sufficient fuel. -/
def natDigits (n : Nat) : List Char :=
  if _h : n < 10 then [Nat.digitChar n]
  else natDigits (n / 10) ++ [Nat.digitChar (n % 10)]
termination_by n
decreasing_by exact Nat.div_lt_self (by omega) (by omega)

theorem digitChar_isDigit {k : Nat} (h : k < 10) :
    (Nat.digitChar k).isDigit = true := by
  interval_cases k <;> decide

theorem digitChar_toNat {k : Nat} (h : k < 10) :
    (Nat.digitChar k).toNat = 48 + k := by
  interval_cases k <;> decide

theorem toDigitsCore_eq_natDigits :
    ∀ (f n : Nat) (ds : List Char), n < f →
      Nat.toDigitsCore 10 f n ds = natDigits n ++ ds := by
  intro f
  induction f with
  | zero => intro n ds h; omega
  | succ fuel ih =>
    intro n ds h
    by_cases h10 : n < 10
    · have hdiv : n / 10 = 0 := Nat.div_eq_of_lt h10
      have hmod : n % 10 = n := Nat.mod_eq_of_lt h10
      simp [Nat.toDigitsCore, hdiv, hmod, natDigits, h10]
    · have hdiv : ¬ n / 10 = 0 := by
        intro h0
        have h1 : n < 10 := (Nat.div_eq_zero_iff (by omega)).mp h0
        omega
      have hlt : n / 10 < fuel := by
        have h1 : n / 10 < n := Nat.div_lt_self (by omega) (by omega)
        omega
      rw [show Nat.toDigitsCore 10 (fuel + 1) n ds
            = Nat.toDigitsCore 10 fuel (n / 10) (Nat.digitChar (n % 10) :: ds) by
          simp [Nat.toDigitsCore, hdiv]]
      rw [ih (n / 10) _ hlt]
      rw [show natDigits n = natDigits (n / 10) ++ [Nat.digitChar (n % 10)] by
          rw [natDigits]; simp [h10]]
      simp

theorem repr_data (n : Nat) : (Nat.repr n).data = natDigits n := by
  show (Nat.toDigits 10 n).asString.data = natDigits n
  rw [Nat.toDigits, toDigitsCore_eq_natDigits (n + 1) n [] (by omega)]
  simp [List.asString]

theorem natDigits_ne_nil (n : Nat) : natDigits n ≠ [] := by
  rw [natDigits]
  split
  · simp
  · simp

theorem natDigits_all_isDigit (n : Nat) :
    ∀ c ∈ natDigits n, c.isDigit = true := by
  induction n using Nat.strong_induction_on with
  | _ n ih =>
    rw [natDigits]
    split
    · next h => simp [digitChar_isDigit h]
    · next h =>
      intro c hc
      rcases List.mem_append.mp hc with h1 | h2
      · exact ih (n / 10) (Nat.div_lt_self (by omega) (by omega)) c h1
      · simp at h2
        subst h2
        exact digitChar_isDigit (Nat.mod_lt _ (by omega))

theorem natDigits_foldl (n : Nat) :
    ∀ a : Nat,
      (natDigits n).foldl (fun m c => m * 10 + (c.toNat - 48)) a
        = a * 10 ^ (natDigits n).length + n := by
  induction n using Nat.strong_induction_on with
  | _ n ih =>
    intro a
    rw [natDigits]
    split
    · next h =>
      simp [digitChar_toNat h]
    · next h =>
      rw [List.foldl_append]
      rw [ih (n / 10) (Nat.div_lt_self (by omega) (by omega)) a]
      simp only [List.foldl_cons, List.foldl_nil, List.length_append,
        List.length_cons, List.length_nil]
      rw [digitChar_toNat (Nat.mod_lt _ (by omega))]
      have hpow : a * 10 ^ ((natDigits (n / 10)).length + (0 + 1))
          = (a * 10 ^ (natDigits (n / 10)).length) * 10 := by
        ring
      rw [hpow]
      have := Nat.div_add_mod n 10
      omega

theorem pyIsDigit_repr (n : Nat) : pyIsDigit (Nat.repr n) = true := by
  unfold pyIsDigit
  rw [repr_data]
  have h1 : (natDigits n).isEmpty = false := by
    cases hd : natDigits n with
    | nil => exact absurd hd (natDigits_ne_nil n)
    | cons a l => rfl
  rw [h1]
  simp [List.all_eq_true]
  exact natDigits_all_isDigit n

theorem pyStrNat_repr (n : Nat) : pyStrNat (Nat.repr n) = n := by
  unfold pyStrNat
  rw [repr_data, natDigits_foldl n 0]
  simp

/-! ### The locator loop: shape, completeness and first-match -/

theorem findLoop_shape (p : Row → Bool) (t : List Row) (i : Int) :
    findLoop p t i = (none, none) ∨ ∃ r q, findLoop p t i = (some r, some q) := by
  induction t generalizing i with
  | nil => left; rfl
  | cons a rest ih =>
    by_cases hp : p a = true
    · right
      exact ⟨a, i + 1, by simp [findLoop, hp]⟩
    · have heq : findLoop p (a :: rest) i = findLoop p rest (i + 1) := by
        simp [findLoop, hp]
      rw [heq]
      exact ih (i + 1)

theorem findLoop_notFound_iff (p : Row → Bool) (t : List Row) (i : Int) :
    findLoop p t i = (none, none) ↔ ∀ r ∈ t, p r = false := by
  induction t generalizing i with
  | nil => simp [findLoop]
  | cons a rest ih =>
    by_cases hp : p a = true
    · simp [findLoop, hp]
    · have heq : findLoop p (a :: rest) i = findLoop p rest (i + 1) := by
        simp [findLoop, hp]
      rw [heq, ih (i + 1)]
      simp [List.forall_mem_cons]
      intro _
      exact eq_false_of_ne_true hp

theorem findLoop_found_iff (p : Row → Bool) (t : List Row) (i : Int)
    (r : Row) (q : Int) :
    findLoop p t i = (some r, some q) ↔
      ∃ k : Nat, t[k]? = some r ∧ p r = true ∧ q = i + k + 1 ∧
        ∀ m : Nat, m < k → ∀ s, t[m]? = some s → p s = false := by
  induction t generalizing i with
  | nil => simp [findLoop]
  | cons a rest ih =>
    by_cases hp : p a = true
    · have heq : findLoop p (a :: rest) i = (some a, some (i + 1)) := by
        simp [findLoop, hp]
      rw [heq]
      constructor
      · intro h
        have h1 : a = r := Option.some.inj (congrArg Prod.fst h)
        have h2 : (i + 1 : Int) = q := Option.some.inj (congrArg Prod.snd h)
        refine ⟨0, by simp [h1], by rw [← h1]; exact hp, by omega, ?_⟩
        intro m hm
        omega
      · rintro ⟨k, hk, hpr, hq, hmin⟩
        cases k with
        | zero =>
          simp at hk
          subst hk
          have hq1 : q = i + 1 := by omega
          rw [hq1]
        | succ k2 =>
          have h0 := hmin 0 (by omega) a (by simp)
          rw [hp] at h0
          cases h0
    · have heq : findLoop p (a :: rest) i = findLoop p rest (i + 1) := by
        simp [findLoop, hp]
      rw [heq, ih (i + 1)]
      constructor
      · rintro ⟨k, hk, hpr, hq, hmin⟩
        refine ⟨k + 1, by simpa using hk, hpr, by omega, ?_⟩
        intro m hm s hs
        cases m with
        | zero =>
          simp at hs
          subst hs
          exact eq_false_of_ne_true hp
        | succ m2 =>
          exact hmin m2 (by omega) s (by simpa using hs)
      · rintro ⟨k, hk, hpr, hq, hmin⟩
        cases k with
        | zero =>
          simp at hk
          subst hk
          rw [hpr] at hp
          cases hp rfl
        | succ k2 =>
          refine ⟨k2, by simpa using hk, hpr, by omega, ?_⟩
          intro m hm s hs
          exact hmin (m + 1) (by omega) s (by simpa using hs)

/-! ### Cell updates and row erasure: index-level behaviour -/

theorem length_updateCell0 (T : Table) (i j : Nat) (v : String) :
    (updateCell0 T i j v).length = T.length := by
  induction T generalizing i with
  | nil => rfl
  | cons a rest ih =>
    cases i with
    | zero => simp [updateCell0]
    | succ i2 => simp [updateCell0, ih i2]

theorem updateCell0_getElem? (T : Table) (i j : Nat) (v : String) (m : Nat) :
    (updateCell0 T i j v)[m]? =
      if m = i then (T[m]?).map (fun r => setCell r j v) else T[m]? := by
  induction T generalizing i m with
  | nil => simp [updateCell0]
  | cons a rest ih =>
    cases i with
    | zero =>
      cases m with
      | zero => simp [updateCell0]
      | succ m2 => simp [updateCell0]
    | succ i2 =>
      cases m with
      | zero => simp [updateCell0]
      | succ m2 =>
        simp only [updateCell0, List.getElem?_cons_succ, ih i2 m2]
        by_cases h : m2 = i2
        · simp [h]
        · simp [h]

theorem setCell_one_two (a c : String) (tl : List String) (v : String) :
    setCell (a :: c :: tl) 1 v = a :: v :: tl := rfl

/-- The second cell of a row, when the row has one (the pet column of
an OwnerLink row). -/
def rowPet? (r : Row) : Option String :=
  match r with
  | _ :: c :: _ => some c
  | _ => none

theorem rowPet?_setCell1 (r : Row) (v : String) :
    rowPet? (setCell r 1 v) = some v := by
  match r with
  | [] => rfl
  | [_] => rfl
  | _ :: _ :: _ => rfl

theorem matchPet_iff_rowPet? (v : String) (r : Row) :
    matchPet v r = true ↔ rowPet? r = some v := by
  match r with
  | [] =>
    simp [show matchPet v ([] : Row) = false from rfl,
          show rowPet? ([] : Row) = none from rfl]
  | [a] =>
    simp [show matchPet v [a] = false from rfl,
          show rowPet? [a] = none from rfl]
  | a :: c :: t =>
    simp [show matchPet v (a :: c :: t) = (c == v) from rfl,
          show rowPet? (a :: c :: t) = some c from rfl]

/-- Two OwnerLink rows collide when their pet cells hold the same
non-empty value. -/
def clash (r s : Row) : Bool :=
  match rowPet? r, rowPet? s with
  | some a, some c => if a.isEmpty then false else a == c
  | _, _ => false

/-- The at-most-one-owner-per-pet invariant of the Owners table: no two
rows hold the same non-empty pet ID. -/
def ownersInv (T : Table) : Prop :=
  List.Pairwise (fun r s => clash r s = false) T

instance ownersInv.instDecidable (T : Table) : Decidable (ownersInv T) :=
  inferInstanceAs (Decidable (List.Pairwise _ T))

theorem clash_true_of_both (r s : Row) (v : String) (hr : rowPet? r = some v)
    (hs : rowPet? s = some v) (hv : v ≠ "") : clash r s = true := by
  have hemp : v.isEmpty = false := by
    rw [Bool.eq_false_iff]
    intro h
    exact hv ((String.isEmpty_iff v).mp h)
  simp [clash, hr, hs, hemp]

theorem clash_eq_false_left (r s : Row) (h : ∀ v, v ≠ "" → rowPet? r ≠ some v) :
    clash r s = false := by
  unfold clash
  cases hr : rowPet? r with
  | none => rfl
  | some a =>
    cases hs : rowPet? s with
    | none => rfl
    | some c =>
      by_cases ha : a = ""
      · rw [ha]
        rfl
      · exact absurd hr (h a ha)

theorem ownersInv_iff (T : Table) :
    ownersInv T ↔ ∀ i j : Nat, i < j → ∀ r s, T[i]? = some r →
      T[j]? = some s → clash r s = false := by
  rw [ownersInv, List.pairwise_iff_getElem]
  constructor
  · intro h i j hij r s hr hs
    have hj : j < T.length := (List.getElem?_eq_some.mp hs).1
    have hi : i < T.length := (List.getElem?_eq_some.mp hr).1
    have := h i j hi hj hij
    rw [List.getElem?_eq_getElem hi] at hr
    rw [List.getElem?_eq_getElem hj] at hs
    rw [← Option.some.inj hr, ← Option.some.inj hs]
    exact this
  · intro h i j hi hj hij
    exact h i j hij _ _ (List.getElem?_eq_getElem hi) (List.getElem?_eq_getElem hj)

theorem pyIsDigit_ne_empty {s : String} (h : pyIsDigit s = true) : s ≠ "" := by
  intro he
  subst he
  cases h

theorem clash_false_of_left_empty (r s : Row) (h : rowPet? r = some "") :
    clash r s = false := by
  unfold clash
  rw [h]
  cases rowPet? s with
  | none => rfl
  | some c => rfl

theorem clash_false_of_right_empty (r s : Row) (h : rowPet? s = some "") :
    clash r s = false := by
  unfold clash
  rw [h]
  cases hr : rowPet? r with
  | none => rfl
  | some a =>
    by_cases ha : a = ""
    · rw [ha]
      rfl
    · have : (a == "") = false := by
        rw [beq_eq_false_iff_ne]
        exact ha
      simp [this]

theorem clash_false_of_right_ne (r s : Row) (a : String)
    (hr : rowPet? r = some a) (h : ∀ x, rowPet? s = some x → x ≠ a) :
    clash r s = false := by
  unfold clash
  rw [hr]
  cases hs : rowPet? s with
  | none => rfl
  | some c =>
    have hca : c ≠ a := h c hs
    by_cases he : a.isEmpty = true
    · simp [he]
    · have : (a == c) = false := by
        rw [beq_eq_false_iff_ne]
        intro hac
        exact hca hac.symm
      simp [he, this]

theorem clash_false_of_left_ne (r s : Row) (v : String)
    (hs : rowPet? s = some v) (h : ∀ x, rowPet? r = some x → x ≠ v) :
    clash r s = false := by
  unfold clash
  rw [hs]
  cases hr : rowPet? r with
  | none => rfl
  | some a =>
    have hav : a ≠ v := h a hr
    by_cases he : a.isEmpty = true
    · simp [he]
    · have : (a == v) = false := by
        rw [beq_eq_false_iff_ne]
        exact hav
      simp [he, this]

/-- Under the invariant, a row holding a non-empty pet value makes every
other position a non-holder of that value. -/
theorem ownersInv_unique (T : Table) (k : Nat) (r : Row) (v : String)
    (hinv : ownersInv T) (hk : T[k]? = some r) (hm : matchPet v r = true)
    (hv : v ≠ "") :
    ∀ m : Nat, m ≠ k → ∀ s, T[m]? = some s → matchPet v s = false := by
  intro m hne s hs
  rw [ownersInv_iff] at hinv
  by_contra hcon
  have hms : matchPet v s = true := by
    cases hx : matchPet v s with
    | false => exact absurd hx hcon
    | true => rfl
  have hr : rowPet? r = some v := (matchPet_iff_rowPet? v r).mp hm
  have hs2 : rowPet? s = some v := (matchPet_iff_rowPet? v s).mp hms
  rcases Nat.lt_or_ge m k with hlt | hge
  · have := hinv m k hlt s r hs hk
    rw [clash_true_of_both s r v hs2 hr hv] at this
    cases this
  · have hlt2 : k < m := by omega
    have := hinv k m hlt2 r s hk hs
    rw [clash_true_of_both r s v hr hs2 hv] at this
    cases this

/-- Clearing a pet cell preserves the invariant. -/
theorem ownersInv_clear (T : Table) (k : Nat) (hinv : ownersInv T) :
    ownersInv (updateCell0 T k 1 "") := by
  rw [ownersInv_iff]
  intro i j hij r s hr hs
  rw [updateCell0_getElem?] at hr hs
  by_cases hi : i = k
  · rw [if_pos hi] at hr
    cases ht : T[i]? with
    | none => rw [ht] at hr; cases hr
    | some t0 =>
      rw [ht] at hr
      have : r = setCell t0 1 "" := (Option.some.inj hr).symm
      rw [this]
      exact clash_false_of_left_empty _ _ (rowPet?_setCell1 t0 "")
  · rw [if_neg hi] at hr
    by_cases hj : j = k
    · rw [if_pos hj] at hs
      cases ht : T[j]? with
      | none => rw [ht] at hs; cases hs
      | some t0 =>
        rw [ht] at hs
        have : s = setCell t0 1 "" := (Option.some.inj hs).symm
        rw [this]
        exact clash_false_of_right_empty _ _ (rowPet?_setCell1 t0 "")
    · rw [if_neg hj] at hs
      exact (ownersInv_iff T).mp hinv i j hij r s hr hs

/-- Writing a non-empty pet value at position `k` preserves the
invariant when no other position holds that value. -/
theorem ownersInv_write (T : Table) (k : Nat) (v : String) (hv : v ≠ "")
    (hinv : ownersInv T)
    (hno : ∀ m : Nat, m ≠ k → ∀ s, T[m]? = some s → matchPet v s = false) :
    ownersInv (updateCell0 T k 1 v) := by
  rw [ownersInv_iff]
  intro i j hij r s hr hs
  rw [updateCell0_getElem?] at hr hs
  by_cases hi : i = k
  · rw [if_pos hi] at hr
    cases ht : T[i]? with
    | none => rw [ht] at hr; cases hr
    | some t0 =>
      rw [ht] at hr
      have hr2 : r = setCell t0 1 v := (Option.some.inj hr).symm
      have hjk : j ≠ k := by omega
      rw [if_neg hjk] at hs
      have hns : matchPet v s = false := hno j hjk s hs
      refine clash_false_of_right_ne r s v ?_ ?_
      · rw [hr2]
        exact rowPet?_setCell1 t0 v
      · intro x hx hxv
        subst hxv
        rw [(matchPet_iff_rowPet? x s).mpr hx] at hns
        cases hns
  · rw [if_neg hi] at hr
    by_cases hj : j = k
    · rw [if_pos hj] at hs
      cases ht : T[j]? with
      | none => rw [ht] at hs; cases hs
      | some t0 =>
        rw [ht] at hs
        have hs2 : s = setCell t0 1 v := (Option.some.inj hs).symm
        have hnr : matchPet v r = false := hno i hi r hr
        refine clash_false_of_left_ne r s v ?_ ?_
        · rw [hs2]
          exact rowPet?_setCell1 t0 v
        · intro x hx hxv
          subst hxv
          rw [(matchPet_iff_rowPet? x r).mpr hx] at hnr
          cases hnr
    · rw [if_neg hj] at hs
      exact (ownersInv_iff T).mp hinv i j hij r s hr hs

/-- Appending a fresh link row preserves the invariant when no existing
row holds the appended pet value. -/
theorem ownersInv_append (T : Table) (name v : String) (hv : v ≠ "")
    (hinv : ownersInv T)
    (hno : ∀ r ∈ T, matchPet v r = false) :
    ownersInv (T ++ [[name, v]]) := by
  unfold ownersInv
  rw [List.pairwise_append]
  refine ⟨hinv, by simp, ?_⟩
  intro a ha b hb
  simp at hb
  subst hb
  refine clash_false_of_left_ne a _ v rfl ?_
  intro x hx hxv
  subst hxv
  have := hno a ha
  rw [(matchPet_iff_rowPet? x a).mpr hx] at this
  cases this

/-! ### The write phase of link as a pure table transformation -/

/-- The pure effect of the link write phase (run.py 458-497) on the
Owners table when every backend call succeeds: resolve the child row
and the row holding the pet, clear the latter when it is a distinct
row, then update the child row cell or append a fresh link row. -/
def writePure (T : Table) (name pid : String) : Table :=
  let o := find_row_by_child_name (some T) name
  let p := find_row_by_pet_id (some T) pid
  let T1 :=
    if pyTruthyInt p.2 && p.2 != o.2 then
      match p.2 with
      | some k => updateCellT T k 2 ""
      | none => T
    else T
  if pyTruthyRow o.1 then
    match o.2 with
    | some k => updateCellT T1 k 2 (Nat.repr (pyStrNat pid))
    | none => T1
  else T1 ++ [[name, Nat.repr (pyStrNat pid)]]

theorem matchId_ne_nil {n : String} {r : Row} (h : matchId n r = true) :
    r ≠ [] := by
  intro he
  subst he
  cases h

theorem pyTruthyRow_of_ne_nil {r : Row} (h : r ≠ []) :
    pyTruthyRow (some r) = true := by
  cases r with
  | nil => exact absurd rfl h
  | cons a t => rfl

theorem updateCellT_natSucc (T : Table) (k : Nat) (v : String) :
    updateCellT T ((k : Int) + 1) 2 v = updateCell0 T k 1 v := by
  unfold updateCellT
  rw [if_neg]
  · have h1 : ((k : Int) + 1 - 1).toNat = k := by
      rw [show (k : Int) + 1 - 1 = (k : Int) by ring, Int.toNat_natCast]
    rw [h1]
    rfl
  · push_neg
    constructor
    · omega
    · omega

theorem findLoop_found_parts {p : Row → Bool} {t : List Row} {r : Row} {q : Int}
    (h : findLoop p t 0 = (some r, some q)) :
    ∃ k : Nat, t[k]? = some r ∧ p r = true ∧ q = k + 1 ∧
      ∀ m : Nat, m < k → ∀ s, t[m]? = some s → p s = false := by
  rcases (findLoop_found_iff p t 0 r q).mp h with ⟨k, hk, hpr, hq, hmin⟩
  exact ⟨k, hk, hpr, by omega, hmin⟩

/-- The link write phase preserves the at-most-one-owner invariant,
provided the written pet ID string is a canonical decimal numeral. -/
theorem writePure_inv (T : Table) (name pid : String)
    (hinv : ownersInv T) (hd : pyIsDigit pid = true)
    (hc : Nat.repr (pyStrNat pid) = pid) :
    ownersInv (writePure T name pid) := by
  have hpne : pid ≠ "" := pyIsDigit_ne_empty hd
  have hp : find_row_by_pet_id (some T) pid = findLoop (matchPet pid) T 0 := by
    simp [find_row_by_pet_id, hd]
  have ho : find_row_by_child_name (some T) name
      = findLoop (matchId name) T 0 := rfl
  unfold writePure
  rw [hp, ho, hc]
  rcases findLoop_shape (matchPet pid) T 0 with hP | ⟨r, q, hP⟩
  · -- no row holds the pet: nothing is cleared
    have hnone : ∀ s ∈ T, matchPet pid s = false :=
      (findLoop_notFound_iff (matchPet pid) T 0).mp hP
    rw [hP]
    simp only [pyTruthyInt, Bool.false_and, if_false]
    rcases findLoop_shape (matchId name) T 0 with hO | ⟨orow, oq, hO⟩
    · rw [hO]
      simp only [pyTruthyRow]
      exact ownersInv_append T name pid hpne hinv hnone
    · rw [hO]
      rcases findLoop_found_parts hO with ⟨ok, hok, hopred, hoq, homin⟩
      have htr : pyTruthyRow (some orow) = true :=
        pyTruthyRow_of_ne_nil (matchId_ne_nil hopred)
      rw [htr]
      simp only [if_true]
      rw [hoq, updateCellT_natSucc]
      refine ownersInv_write T ok pid hpne hinv ?_
      intro m hm s hs
      exact hnone s (List.mem_iff_getElem?.mpr ⟨m, hs⟩)
  · -- some row holds the pet, at 0-based index k
    rcases findLoop_found_parts hP with ⟨k, hk, hpred, hq, hmin⟩
    have huniq := ownersInv_unique T k r pid hinv hk hpred hpne
    rw [hP]
    dsimp only
    have htq : pyTruthyInt (some q) = true := by
      simp [pyTruthyInt]
      omega
    by_cases hsame : (findLoop (matchId name) T 0).2 = some q
    · -- the holder is the child row itself: no clearing
      have hcond : (pyTruthyInt (some q) && (some q != (findLoop (matchId name) T 0).2)) = false := by
        rw [hsame]
        simp
      rw [hcond]
      simp only [Bool.false_eq_true, if_false]
      rcases findLoop_shape (matchId name) T 0 with hO | ⟨orow, oq, hO⟩
      · rw [hO] at hsame
        cases hsame
      · rcases findLoop_found_parts hO with ⟨ok, hok, hopred, hoq, homin⟩
        rw [hO]
        have htr : pyTruthyRow (some orow) = true :=
          pyTruthyRow_of_ne_nil (matchId_ne_nil hopred)
        rw [htr]
        simp only [if_true]
        rw [hoq, updateCellT_natSucc]
        have hokk : ok = k := by
          rw [hO] at hsame
          simp at hsame
          omega
        subst hokk
        exact ownersInv_write T ok pid hpne hinv huniq
    · -- the holder is a distinct row: it is cleared first
      have hcond : (pyTruthyInt (some q) && (some q != (findLoop (matchId name) T 0).2)) = true := by
        rw [htq]
        simp
        intro hcon
        exact absurd hcon.symm hsame
      rw [hcond]
      simp only [if_true]
      rw [hq, updateCellT_natSucc]
      have hT1inv : ownersInv (updateCell0 T k 1 "") := ownersInv_clear T k hinv
      have hno1 : ∀ m : Nat, ∀ s, (updateCell0 T k 1 "")[m]? = some s →
          matchPet pid s = false := by
        intro m s hs
        rw [updateCell0_getElem?] at hs
        by_cases hmk : m = k
        · rw [if_pos hmk] at hs
          cases ht : T[m]? with
          | none => rw [ht] at hs; cases hs
          | some t0 =>
            rw [ht] at hs
            have : s = setCell t0 1 "" := (Option.some.inj hs).symm
            rw [this]
            cases hmp : matchPet pid (setCell t0 1 "") with
            | false => rfl
            | true =>
              have := (matchPet_iff_rowPet? pid _).mp hmp
              rw [rowPet?_setCell1] at this
              exact absurd (Option.some.inj this).symm hpne
        · rw [if_neg hmk] at hs
          exact huniq m hmk s hs
      rcases findLoop_shape (matchId name) T 0 with hO | ⟨orow, oq, hO⟩
      · rw [hO]
        simp only [pyTruthyRow]
        refine ownersInv_append _ name pid hpne hT1inv ?_
        intro s hsm
        rcases List.mem_iff_getElem?.mp hsm with ⟨m, hm⟩
        exact hno1 m s hm
      · rcases findLoop_found_parts hO with ⟨ok, hok, hopred, hoq, homin⟩
        rw [hO]
        have htr : pyTruthyRow (some orow) = true :=
          pyTruthyRow_of_ne_nil (matchId_ne_nil hopred)
        rw [htr]
        simp only [if_true]
        rw [hoq, updateCellT_natSucc]
        refine ownersInv_write _ ok pid hpne hT1inv ?_
        intro m hm s hs
        exact hno1 m s hs

/-! ### Backend call characterizations -/

theorem scanAll_eq (b : Backend) (s : Sheet) :
    scanAll b s = (if b.fails b.calls = true then none else some (b.db.get s),
      { b with calls := b.calls + 1 }) := by
  cases hf : b.fails b.calls <;> simp [scanAll, stepCall, hf]

theorem findByNameB_eq (b : Backend) (s : Sheet) (n : String) :
    findByNameB b s n =
      ((if b.fails b.calls = true then (none, some (-1))
        else findLoop (matchId n) (b.db.get s) 0),
       { b with calls := b.calls + 1 }) := by
  cases hf : b.fails b.calls <;>
    simp [findByNameB, scanAll_eq, hf, find_row_by_child_name]

theorem findByPetB_eq_digit (b : Backend) (s : Sheet) (p : String)
    (hd : pyIsDigit p = true) :
    findByPetB b s p =
      ((if b.fails b.calls = true then (none, some (-1))
        else findLoop (matchPet p) (b.db.get s) 0),
       { b with calls := b.calls + 1 }) := by
  cases hf : b.fails b.calls <;>
    simp [findByPetB, scanAll_eq, hf, find_row_by_pet_id, hd]

theorem findByIdB_eq_digit (b : Backend) (s : Sheet) (p : String)
    (hd : pyIsDigit p = true) :
    findByIdB b s p =
      ((if b.fails b.calls = true then (none, some (-1))
        else findLoop (matchId p) (b.db.get s) 0),
       { b with calls := b.calls + 1 }) := by
  cases hf : b.fails b.calls <;>
    simp [findByIdB, scanAll_eq, hf, find_row_by_id, hd]

theorem updateCellB_fail (b : Backend) (s : Sheet) (i j : Int) (v : String)
    (hf : b.fails b.calls = true) :
    updateCellB b s i j v = (false, { b with calls := b.calls + 1 }) := by
  simp [updateCellB, stepCall, hf]

theorem updateCellB_ok (b : Backend) (s : Sheet) (i j : Int) (v : String)
    (hf : b.fails b.calls = false) :
    updateCellB b s i j v =
      (true, { b with calls := b.calls + 1,
                      db := b.db.set s (updateCellT (b.db.get s) i j v),
                      writes := b.writes + 1 }) := by
  simp [updateCellB, stepCall, hf]

theorem appendRowB_fail (b : Backend) (s : Sheet) (r : Row)
    (hf : b.fails b.calls = true) :
    appendRowB b s r = (false, { b with calls := b.calls + 1 }) := by
  simp [appendRowB, stepCall, hf]

theorem appendRowB_ok (b : Backend) (s : Sheet) (r : Row)
    (hf : b.fails b.calls = false) :
    appendRowB b s r =
      (true, { b with calls := b.calls + 1,
                      db := b.db.set s (b.db.get s ++ [r]),
                      writes := b.writes + 1 }) := by
  simp [appendRowB, stepCall, hf]

theorem deleteRowB_fail (b : Backend) (s : Sheet) (i : Int)
    (hf : b.fails b.calls = true) :
    deleteRowB b s i = (false, { b with calls := b.calls + 1 }) := by
  simp [deleteRowB, stepCall, hf]

theorem deleteRowB_ok (b : Backend) (s : Sheet) (i : Int)
    (hf : b.fails b.calls = false) :
    deleteRowB b s i =
      (true, { b with calls := b.calls + 1,
                      db := b.db.set s (eraseRowT (b.db.get s) i),
                      writes := b.writes + 1 }) := by
  simp [deleteRowB, stepCall, hf]

theorem findByIdB_snd (b : Backend) (s : Sheet) (p : String) :
    (findByIdB b s p).2
      = if pyIsDigit p = true then { b with calls := b.calls + 1 } else b := by
  cases hd : pyIsDigit p <;> cases hf : b.fails b.calls <;>
    simp [findByIdB, scanAll_eq, hd, hf]

theorem findByNameB_snd (b : Backend) (s : Sheet) (n : String) :
    (findByNameB b s n).2 = { b with calls := b.calls + 1 } := by
  rw [findByNameB_eq]

theorem findByPetB_snd (b : Backend) (s : Sheet) (p : String) :
    (findByPetB b s p).2
      = if pyIsDigit p = true then { b with calls := b.calls + 1 } else b := by
  cases hd : pyIsDigit p <;> cases hf : b.fails b.calls <;>
    simp [findByPetB, scanAll_eq, hd, hf]

/-! ### The link resolve loops and pre-check only read the backend -/

theorem linkPetClaimCheck_parts (b : Backend) (pid : String)
    (st : List String) :
    linkPetClaimCheck b pid st = (.go, (findByPetB b .owners pid).2, st) := by
  rcases hF : findByPetB b .owners pid with ⟨F1, F2⟩
  simp [linkPetClaimCheck, hF]

theorem linkPetClaimCheck_pres (b : Backend) (pid : String) (st : List String) :
    ((linkPetClaimCheck b pid st).2.1).db = b.db ∧
    ((linkPetClaimCheck b pid st).2.1).writes = b.writes ∧
    ((linkPetClaimCheck b pid st).2.1).fails = b.fails := by
  rw [linkPetClaimCheck_parts, findByPetB_snd]
  split <;> exact ⟨rfl, rfl, rfl⟩

theorem linkPrecheck_pres (b : Backend) (name pid : String) (st : List String) :
    ((linkPrecheck b name pid st).2.1).db = b.db ∧
    ((linkPrecheck b name pid st).2.1).writes = b.writes ∧
    ((linkPrecheck b name pid st).2.1).fails = b.fails := by
  unfold linkPrecheck
  rcases hX : findByNameB b .owners name with ⟨⟨R1, I1⟩, X2⟩
  have hX2 : X2 = { b with calls := b.calls + 1 } := by
    have := congrArg Prod.snd hX
    rw [findByNameB_snd] at this
    exact this.symm
  have hXpres : X2.db = b.db ∧ X2.writes = b.writes ∧ X2.fails = b.fails := by
    rw [hX2]
    exact ⟨rfl, rfl, rfl⟩
  dsimp only
  match R1 with
  | none =>
    have := linkPetClaimCheck_pres X2 pid st
    exact ⟨this.1.trans hXpres.1, this.2.1.trans hXpres.2.1,
           this.2.2.trans hXpres.2.2⟩
  | some [] =>
    have := linkPetClaimCheck_pres X2 pid st
    exact ⟨this.1.trans hXpres.1, this.2.1.trans hXpres.2.1,
           this.2.2.trans hXpres.2.2⟩
  | some [c0] =>
    have := linkPetClaimCheck_pres X2 pid st
    exact ⟨this.1.trans hXpres.1, this.2.1.trans hXpres.2.1,
           this.2.2.trans hXpres.2.2⟩
  | some (c0 :: c :: r) =>
    dsimp only
    by_cases hce : c.isEmpty = true
    · rw [if_pos hce]
      have := linkPetClaimCheck_pres X2 pid st
      exact ⟨this.1.trans hXpres.1, this.2.1.trans hXpres.2.1,
             this.2.2.trans hXpres.2.2⟩
    · rw [if_neg hce]
      rcases hc : confirm_action st with _ | ⟨fl, st2⟩
      · exact hXpres
      · cases fl
        · exact hXpres
        · have := linkPetClaimCheck_pres X2 pid st2
          exact ⟨this.1.trans hXpres.1, this.2.1.trans hXpres.2.1,
                 this.2.2.trans hXpres.2.2⟩

theorem linkResolve_pres (s : Sheet) (st : List String) :
    ∀ b : Backend,
      ((linkResolve s b st).2.1).db = b.db ∧
      ((linkResolve s b st).2.1).writes = b.writes ∧
      ((linkResolve s b st).2.1).fails = b.fails := by
  induction st with
  | nil => intro b; exact ⟨rfl, rfl, rfl⟩
  | cons line rest ih =>
    intro b
    rw [linkResolve]
    by_cases he : ((pyStrip line)).isEmpty = true
    · rw [if_pos he]
      exact ih b
    · rw [if_neg he]
      by_cases hv : validate_integer (pyStrip line) = true
      · rw [if_pos hv]
        rcases hF : findByIdB b s (pyStrip line) with ⟨F1, b1⟩
        dsimp only
        have hb1 : b1 = if pyIsDigit (pyStrip line) = true
            then { b with calls := b.calls + 1 } else b := by
          have := congrArg Prod.snd hF
          rw [findByIdB_snd] at this
          exact this.symm
        have hpres : b1.db = b.db ∧ b1.writes = b.writes ∧ b1.fails = b.fails := by
          rw [hb1]
          split <;> exact ⟨rfl, rfl, rfl⟩
        by_cases h1 : F1.2 = some (-1)
        · simp only [h1, if_pos]
          exact hpres
        · rw [if_neg h1]
          by_cases h2 : pyTruthyRow F1.1 = true
          · rw [if_pos h2]
            match F1 with
            | (some row, i) => exact hpres
            | (none, i) => exact hpres
          · rw [if_neg h2]
            have := ih b1
            exact ⟨this.1.trans hpres.1, this.2.1.trans hpres.2.1,
                   this.2.2.trans hpres.2.2⟩
      · rw [if_neg hv]
        exact ih b

theorem linkResolve_found (s : Sheet) (st : List String) :
    ∀ (b : Backend) (id : String) (row : Row) (b' : Backend)
      (st' : List String),
      linkResolve s b st = (.found id row, b', st') →
      pyIsDigit id = true ∧ matchId id row = true ∧ row ∈ b.db.get s := by
  induction st with
  | nil =>
    intro b id row b' st' h
    rw [linkResolve] at h
    cases h
  | cons line rest ih =>
    intro b id row b' st' h
    rw [linkResolve] at h
    by_cases he : ((pyStrip line)).isEmpty = true
    · rw [if_pos he] at h
      exact ih b id row b' st' h
    · rw [if_neg he] at h
      by_cases hv : validate_integer (pyStrip line) = true
      · rw [if_pos hv] at h
        have hd : pyIsDigit (pyStrip line) = true := hv
        rw [findByIdB_eq_digit b s (pyStrip line) hd] at h
        by_cases hf : b.fails b.calls = true
        · rw [if_pos hf] at h
          try dsimp only at h
          rw [if_pos rfl] at h
          cases h
        · rw [if_neg hf] at h
          try dsimp only at h
          rcases findLoop_shape (matchId (pyStrip line)) (b.db.get s) 0 with hL |
            ⟨r0, q0, hL⟩
          · rw [hL] at h
            try dsimp only at h
            rw [if_neg (by simp)] at h
            rw [if_neg (by simp [pyTruthyRow])] at h
            have := ih _ id row b' st' h
            exact this
          · rw [hL] at h
            try dsimp only at h
            rcases findLoop_found_parts hL with ⟨k, hk, hpred, hq, hmin⟩
            rw [if_neg (by simp; omega)] at h
            rw [if_pos (pyTruthyRow_of_ne_nil (matchId_ne_nil hpred))] at h
            have h1 : id = (pyStrip line) := by
              have := congrArg (fun x => x.1) h
              cases this
              rfl
            have h2 : row = r0 := by
              have := congrArg (fun x => x.1) h
              cases this
              rfl
            refine ⟨by rw [h1]; exact hd, ?_, ?_⟩
            · rw [h1, h2]
              exact hpred
            · rw [h2]
              exact List.mem_iff_getElem?.mpr ⟨k, hk⟩
      · rw [if_neg hv] at h
        exact ih b id row b' st' h

theorem DB.get_owners (db : DB) : db.get .owners = db.owners := rfl

theorem DB.set_owners_owners (db : DB) (T : Table) :
    (db.set .owners T).owners = T := rfl

theorem DB.set_owners_children (db : DB) (T : Table) :
    (db.set .owners T).children = db.children := rfl

theorem DB.set_owners_pets (db : DB) (T : Table) :
    (db.set .owners T).pets = db.pets := rfl

theorem matchPet_shape {v : String} {r : Row} (h : matchPet v r = true) :
    ∃ a c t, r = a :: c :: t := by
  match r with
  | [] => cases h
  | [a] => cases h
  | a :: c :: t => exact ⟨a, c, t, rfl⟩

theorem writePure_unfold (T : Table) (name pid : String)
    (hd : pyIsDigit pid = true) :
    writePure T name pid =
      (let o := findLoop (matchId name) T 0
       let p := findLoop (matchPet pid) T 0
       let T1 :=
         if pyTruthyInt p.2 && p.2 != o.2 then
           match p.2 with
           | some k => updateCellT T k 2 ""
           | none => T
         else T
       if pyTruthyRow o.1 then
         match o.2 with
         | some k => updateCellT T1 k 2 (Nat.repr (pyStrNat pid))
         | none => T1
       else T1 ++ [[name, Nat.repr (pyStrNat pid)]]) := by
  unfold writePure
  rw [show find_row_by_pet_id (some T) pid = findLoop (matchPet pid) T 0 by
    simp [find_row_by_pet_id, hd]]
  rfl

theorem pyTruthyRow_none : pyTruthyRow none = false := rfl

theorem pyTruthyRow_some (r : Row) : pyTruthyRow (some r) = !r.isEmpty := rfl

theorem pyTruthyInt_none : pyTruthyInt none = false := rfl

theorem pyTruthyInt_some (i : Int) : pyTruthyInt (some i) = (i != 0) := rfl

/-- A successful link write phase transforms the Owners table exactly
as `writePure` describes and leaves the other tables alone. -/
theorem linkWritePhase_success (b : Backend) (name pid : String)
    (b' : Backend) (hd : pyIsDigit pid = true)
    (h : linkWritePhase b name pid = (.success, b')) :
    b'.db.owners = writePure b.db.owners name pid ∧
    b'.db.children = b.db.children ∧
    b'.db.pets = b.db.pets := by
  unfold linkWritePhase at h
  rw [findByNameB_eq] at h
  by_cases hf0 : b.fails b.calls = true
  · simp [hf0] at h
  · rw [if_neg hf0] at h
    try dsimp only at h
    rw [DB.get_owners] at h
    rcases findLoop_shape (matchId name) b.db.owners 0 with hO | ⟨orow, oq, hO⟩
    · -- no owner row for the child
      rw [hO] at h
      try dsimp only at h
      rw [findByPetB_eq_digit _ _ _ hd] at h
      try dsimp only at h
      by_cases hf1 : b.fails (b.calls + 1) = true
      · simp [hf1, pyTruthyInt_some] at h
      · rw [if_neg hf1] at h
        try dsimp only at h
        rw [DB.get_owners] at h
        rcases findLoop_shape (matchPet pid) b.db.owners 0 with hP | ⟨r, q, hP⟩
        · -- nothing to clear, append a fresh row
          rw [hP] at h
          try dsimp only at h
          by_cases hf2 : b.fails (b.calls + 1 + 1) = true
          · simp [hf2, appendRowB_fail, pyTruthyInt_none, pyTruthyRow_none] at h
          · simp [hf2, appendRowB_ok, pyTruthyInt_none, pyTruthyRow_none] at h
            rw [← h]
            rw [writePure_unfold _ _ _ hd, hO, hP]
            simp [pyTruthyInt_none, pyTruthyRow_none]
            exact ⟨rfl, rfl, rfl⟩
        · -- a distinct row holds the pet: clear it, then append
          rw [hP] at h
          try dsimp only at h
          rcases findLoop_found_parts hP with ⟨k, hk, hpred, hq, hmin⟩
          rcases matchPet_shape hpred with ⟨a0, c0, t0, hr⟩
          have hq0 : (q != 0) = true := by
            rw [bne_iff_ne]
            omega
          rw [hr] at h
          try dsimp only at h
          by_cases hf2 : b.fails (b.calls + 1 + 1) = true
          · simp [hf2, hq0, updateCellB_fail, pyTruthyInt_some] at h
          · by_cases hf3 : b.fails (b.calls + 1 + 1 + 1) = true
            · simp [hf2, hf3, hq0, updateCellB_ok, appendRowB_fail,
                pyTruthyInt_some, pyTruthyRow_none] at h
            · simp [hf2, hf3, hq0, updateCellB_ok, appendRowB_ok,
                pyTruthyInt_some, pyTruthyRow_none] at h
              rw [← h]
              rw [writePure_unfold _ _ _ hd, hO, hP]
              simp [hq0, pyTruthyInt_some, pyTruthyRow_none]
              exact ⟨rfl, rfl, rfl⟩
    · -- the child has an owner row at position oq
      rw [hO] at h
      try dsimp only at h
      rcases findLoop_found_parts hO with ⟨ok, hok, hopred, hoq, homin⟩
      have hone : ¬ ((some oq : Option Int) = some (-1)) := by
        simp
        omega
      rw [if_neg hone] at h
      try dsimp only at h
      rw [findByPetB_eq_digit _ _ _ hd] at h
      try dsimp only at h
      have htro : pyTruthyRow (some orow) = true :=
        pyTruthyRow_of_ne_nil (matchId_ne_nil hopred)
      by_cases hf1 : b.fails (b.calls + 1) = true
      · have hbne : ((some (-1) : Option Int) != some oq) = true := by
          rw [bne_iff_ne]
          intro hcc
          have := Option.some.inj hcc
          omega
        simp [hf1, hbne, pyTruthyInt_some] at h
      · rw [if_neg hf1] at h
        try dsimp only at h
        rw [DB.get_owners] at h
        rcases findLoop_shape (matchPet pid) b.db.owners 0 with hP | ⟨r, q, hP⟩
        · -- nothing to clear: update the owner row
          rw [hP] at h
          try dsimp only at h
          by_cases hf2 : b.fails (b.calls + 1 + 1) = true
          · simp [hf2, htro, updateCellB_fail, pyTruthyInt_none] at h
          · simp [hf2, htro, updateCellB_ok, pyTruthyInt_none] at h
            rw [← h]
            rw [writePure_unfold _ _ _ hd, hO, hP]
            simp [htro, pyTruthyInt_none]
            exact ⟨rfl, rfl, rfl⟩
        · rw [hP] at h
          try dsimp only at h
          rcases findLoop_found_parts hP with ⟨k, hk, hpred, hq, hmin⟩
          by_cases hsame : q = oq
          · -- the holder is the owner row itself: no clearing
            have hbne : ((some q : Option Int) != some oq) = false := by
              rw [hsame]
              simp
            by_cases hf2 : b.fails (b.calls + 1 + 1) = true
            · simp [hf2, hbne, htro, updateCellB_fail] at h
            · simp [hf2, hbne, htro, updateCellB_ok] at h
              rw [← h]
              rw [writePure_unfold _ _ _ hd, hO, hP]
              simp [hbne, htro]
              exact ⟨rfl, rfl, rfl⟩
          · -- a distinct holder row: clear it, then update
            rcases matchPet_shape hpred with ⟨a0, c0, t0, hr⟩
            have hq0 : (q != 0) = true := by
              rw [bne_iff_ne]
              omega
            have hbne : ((some q : Option Int) != some oq) = true := by
              rw [bne_iff_ne]
              intro hcc
              exact hsame (Option.some.inj hcc)
            rw [hr] at h
            try dsimp only at h
            by_cases hf2 : b.fails (b.calls + 1 + 1) = true
            · simp [hf2, hq0, hbne, updateCellB_fail, pyTruthyInt_some] at h
            · by_cases hf3 : b.fails (b.calls + 1 + 1 + 1) = true
              · simp [hf2, hf3, hq0, hbne, htro, updateCellB_ok,
                  updateCellB_fail, pyTruthyInt_some] at h
              · simp [hf2, hf3, hq0, hbne, htro, updateCellB_ok,
                  pyTruthyInt_some] at h
                rw [← h]
                rw [writePure_unfold _ _ _ hd, hO, hP]
                simp [hq0, hbne, htro, pyTruthyInt_some]
                exact ⟨rfl, rfl, rfl⟩

theorem matchId_shape {id : String} {r : Row} (h : matchId id r = true) :
    ∃ tl, r = id :: tl := by
  match r with
  | [] => cases h
  | c :: tl =>
    have : c = id := by
      have hc : (c == id) = true := h
      exact eq_of_beq hc
    exact ⟨tl, by rw [this]⟩

theorem linkResolve_aborted (s : Sheet) (st : List String) :
    ∀ (b : Backend) (o : LinkOutcome) (b' : Backend) (st' : List String),
      linkResolve s b st = (.aborted o, b', st') →
      o = .outOfInput ∨ o = .findError := by
  induction st with
  | nil =>
    intro b o b' st' h
    rw [linkResolve] at h
    have := congrArg (fun x => x.1) h
    dsimp only at this
    cases this
    left
    rfl
  | cons line rest ih =>
    intro b o b' st' h
    rw [linkResolve] at h
    by_cases he : ((pyStrip line)).isEmpty = true
    · rw [if_pos he] at h
      exact ih b o b' st' h
    · rw [if_neg he] at h
      by_cases hv : validate_integer (pyStrip line) = true
      · rw [if_pos hv] at h
        rcases hF : findByIdB b s (pyStrip line) with ⟨F1, b1⟩
        rw [hF] at h
        try dsimp only at h
        by_cases h1 : F1.2 = some (-1)
        · rw [if_pos h1] at h
          have := congrArg (fun x => x.1) h
          dsimp only at this
          cases this
          right
          rfl
        · rw [if_neg h1] at h
          by_cases h2 : pyTruthyRow F1.1 = true
          · rw [if_pos h2] at h
            match hF1 : F1.1 with
            | some row =>
              rw [hF1] at h
              try dsimp only at h
              have := congrArg (fun x => x.1) h
              dsimp only at this
              cases this
            | none =>
              rw [hF1] at h
              try dsimp only at h
              have := congrArg (fun x => x.1) h
              dsimp only at this
              cases this
              right
              rfl
          · rw [if_neg h2] at h
            exact ih b1 o b' st' h
      · rw [if_neg hv] at h
        exact ih b o b' st' h

/-- The pet-ID cells in the first column are canonical decimal
numerals: re-rendering the parsed value gives back the cell. -/
def canonicalHead (r : Row) : Bool :=
  match r with
  | [] => true
  | c :: _ => !pyIsDigit c || (Nat.repr (pyStrNat c) == c)

/-- Every row of the table has a canonical first cell (true of every
row the program itself appends, which renders a Python int). -/
def canonicalPets (T : Table) : Prop :=
  ∀ r ∈ T, canonicalHead r = true

instance canonicalPets.instDecidable (T : Table) :
    Decidable (canonicalPets T) :=
  List.decidableBAll _ T

/-- A successful `link_child_pet` run is a successful write phase on a
backend holding the same tables, for a validated pet ID read off a row
of the Pets table. -/
theorem link_child_pet_success (b : Backend) (st : List String)
    (b' : Backend) (st' : List String)
    (h : link_child_pet b st = (.success, b', st')) :
    ∃ (name pid : String) (bm : Backend),
      pyIsDigit pid = true ∧ bm.db = b.db ∧
      (∃ prow, prow ∈ b.db.pets ∧ matchId pid prow = true) ∧
      linkWritePhase bm name pid = (.success, b') := by
  unfold link_child_pet at h
  rcases hc : linkResolve .children b st with ⟨cres, bc, stc⟩
  rw [hc] at h
  have hbc : bc.db = b.db := by
    have := (linkResolve_pres .children st b).1
    rw [hc] at this
    exact this
  match cres with
  | .aborted o =>
    try dsimp only at h
    have ho := congrArg (fun x => x.1) h
    dsimp only at ho
    subst ho
    rcases linkResolve_aborted .children st b _ _ _ hc with h1 | h1 <;> cases h1
  | .found cid crow =>
    match crow with
    | [] => simp at h
    | [_] => simp at h
    | [_, _] => simp at h
    | [_, _, _] => simp at h
    | _ :: f :: l :: _ :: _ =>
      try dsimp only at h
      rcases hp : linkResolve .pets bc stc with ⟨pres, bp, stp⟩
      rw [hp] at h
      have hbp : bp.db = b.db := by
        have := (linkResolve_pres .pets stc bc).1
        rw [hp] at this
        rw [this, hbc]
      match pres with
      | .aborted o =>
        try dsimp only at h
        have ho := congrArg (fun x => x.1) h
        dsimp only at ho
        subst ho
        rcases linkResolve_aborted .pets stc bc _ _ _ hp with h1 | h1 <;> cases h1
      | .found pid prow =>
        have hfound := linkResolve_found .pets stc bc pid prow bp stp hp
        match prow with
        | [] => simp at h
        | [_] => simp at h
        | [_, _] => simp at h
        | [_, _, _] => simp at h
        | p0 :: p1 :: p2 :: p3 :: ptl =>
          try dsimp only at h
          rcases hpre : linkPrecheck bp (f ++ " " ++ l) pid stp with ⟨pr, bq, stq⟩
          rw [hpre] at h
          have hbq : bq.db = b.db := by
            have := (linkPrecheck_pres bp (f ++ " " ++ l) pid stp).1
            rw [hpre] at this
            rw [this, hbp]
          match pr with
          | .refused => simp at h
          | .eof => simp at h
          | .go =>
            try dsimp only at h
            rcases hcf : confirm_action stq with _ | ⟨fl, st2⟩
            · rw [hcf] at h
              simp at h
            · rw [hcf] at h
              cases fl
              · simp at h
              · try dsimp only at h
                rcases hw : linkWritePhase bq (f ++ " " ++ l) pid with ⟨out, bw⟩
                rw [hw] at h
                try dsimp only at h
                have ho := congrArg (fun x => x.1) h
                dsimp only at ho
                subst ho
                have hb2 := congrArg (fun x => x.2.1) h
                dsimp only at hb2
                refine ⟨f ++ " " ++ l, pid, bq, hfound.1, hbq, ?_, ?_⟩
                · refine ⟨p0 :: p1 :: p2 :: p3 :: ptl, ?_, hfound.2.1⟩
                  have hmem := hfound.2.2
                  rw [show bc.db.get Sheet.pets = bc.db.pets from rfl, hbc] at hmem
                  exact hmem
                · rw [hw, hb2]

/-! ### Concrete demonstration states -/

/-- A backend whose calls never fail. -/
def noFails : Nat → Bool := fun _ => false

def demoChildren : Table :=
  [["ID", "First Name", "Last Name", "Age"],
   ["1", "Ann", "Lee", "10"],
   ["2", "Bob", "Fox", "9"]]

def demoPets : Table :=
  [["ID", "Nickname", "Age", "Type"],
   ["1", "Rex", "3", "puppy"]]

def demoOwners : Table :=
  [["Child Name", "Pet ID"]]

def demoBackend : Backend :=
  ⟨⟨demoChildren, demoPets, demoOwners⟩, noFails, 0, 0⟩

/-- A state with a leading-zero pet ID cell in Pets and a canonical
occurrence of the same numeric ID already linked in Owners. -/
def zeroPadBackend : Backend :=
  ⟨⟨[["ID", "First Name", "Last Name", "Age"], ["1", "A", "B", "10"]],
    [["ID", "Nickname", "Age", "Type"], ["007", "Rex", "3", "puppy"]],
    [["Child Name", "Pet ID"], ["X", "7"]]⟩, noFails, 0, 0⟩

/-- c1 (amended): when every pet ID cell of the Pets table is a
canonical decimal numeral, a successfully completed link operation
preserves the at-most-one-owner-per-pet invariant of the Owners table;
and in the concrete relink scenario, after linking pet 1 to Ann and
then to Bob, search-by-pet reports Bob and search-by-child on Ann
reports not linked. -/
theorem claim_C1_link_preserves_invariant
    (b : Backend) (script : List String) (b' : Backend) (st' : List String)
    (hinv : ownersInv b.db.owners) (hcanon : canonicalPets b.db.pets)
    (hrun : link_child_pet b script = (.success, b', st')) :
    ownersInv b'.db.owners ∧
      ((link_child_pet demoBackend ["1", "1", "y"]).1 = .success ∧
       (link_child_pet (link_child_pet demoBackend ["1", "1", "y"]).2.1
          ["2", "1", "y"]).1 = .success ∧
       (search_by_pet
          (link_child_pet (link_child_pet demoBackend ["1", "1", "y"]).2.1
            ["2", "1", "y"]).2.1 ["1"]).1 = .foundLink "Bob Fox" "2" "9" ∧
       (search_by_child
          (link_child_pet (link_child_pet demoBackend ["1", "1", "y"]).2.1
            ["2", "1", "y"]).2.1 ["1"]).1 = .notLinked) := by
  constructor
  · obtain ⟨name, pid, bm, hd, hbm, ⟨prow, hmem, hmatch⟩, hws⟩ :=
      link_child_pet_success b script b' st' hrun
    have hws2 := linkWritePhase_success bm name pid b' hd hws
    have hro : b'.db.owners = writePure b.db.owners name pid := by
      rw [hws2.1, hbm]
    obtain ⟨tl, hptl⟩ := matchId_shape hmatch
    have hcanr := hcanon prow hmem
    rw [hptl] at hcanr
    have hc : Nat.repr (pyStrNat pid) = pid := by
      rw [show canonicalHead (pid :: tl)
            = (!pyIsDigit pid || (Nat.repr (pyStrNat pid) == pid)) from rfl,
          hd] at hcanr
      simp at hcanr
      exact hcanr
    rw [hro]
    exact writePure_inv b.db.owners name pid hinv hd hc
  · exact ⟨by decide, by decide, by decide, by decide⟩

/-- c1 counterexample: from a state satisfying the invariant, linking
the pet whose Pets ID cell is the non-canonical numeral "007" succeeds
and leaves two Owners rows holding pet ID "7": the claim as stated
(for every state) is false on the code. -/
theorem claim_C1_counterexample :
    ownersInv zeroPadBackend.db.owners ∧
    (link_child_pet zeroPadBackend ["1", "007", "y"]).1 = .success ∧
    ¬ ownersInv
        ((link_child_pet zeroPadBackend ["1", "007", "y"]).2.1).db.owners := by
  refine ⟨by decide, by decide, by decide⟩

/-- c1 witness: the amended theorem applied to the concrete first link
of the demonstration scenario. -/
theorem claim_C1_witness :
    ownersInv
      ((link_child_pet demoBackend ["1", "1", "y"]).2.1).db.owners := by
  have hsucc : (link_child_pet demoBackend ["1", "1", "y"]).1 = .success := by
    decide
  have hrun : link_child_pet demoBackend ["1", "1", "y"]
      = (.success, (link_child_pet demoBackend ["1", "1", "y"]).2.1,
         (link_child_pet demoBackend ["1", "1", "y"]).2.2) := by
    rw [← hsucc]
  exact (claim_C1_link_preserves_invariant demoBackend ["1", "1", "y"]
    _ _ (by decide) (by decide) hrun).1

/-! ### The two write steps of the link write phase, separated -/

/-- Step 7 of the link algorithm (run.py 467-478) as a pure table
transformation: clear the pet cell of the row currently holding the
pet when it sits at a different position than the child row. -/
def clearStep (T : Table) (name pid : String) : Table :=
  let o := find_row_by_child_name (some T) name
  let p := find_row_by_pet_id (some T) pid
  if pyTruthyInt p.2 && p.2 != o.2 then
    match p.2 with
    | some k => updateCellT T k 2 ""
    | none => T
  else T

/-- Step 8 of the link algorithm (run.py 480-491) as a pure table
transformation: update the pet cell of the resolved child row, or
append a fresh link row when the child has none. -/
def step8 (T1 : Table) (name pid : String) (orow : Option Row)
    (oidx : Option Int) : Table :=
  if pyTruthyRow orow then
    match oidx with
    | some k => updateCellT T1 k 2 (Nat.repr (pyStrNat pid))
    | none => T1
  else T1 ++ [[name, Nat.repr (pyStrNat pid)]]

theorem writePure_decompose (T : Table) (name pid : String) :
    writePure T name pid
      = step8 (clearStep T name pid) name pid
          (find_row_by_child_name (some T) name).1
          (find_row_by_child_name (some T) name).2 := rfl

/-- Under the invariant, the clearing step fires exactly when some row
holds the pet at a position other than the resolved child row. -/
theorem clearStep_spec (T : Table) (name pid : String)
    (hd : pyIsDigit pid = true) (hinv : ownersInv T) :
    (∀ (k : Nat) (r : Row), T[k]? = some r → matchPet pid r = true →
        (find_row_by_child_name (some T) name).2 ≠ some ((k : Int) + 1) →
        clearStep T name pid = updateCell0 T k 1 "")
    ∧ ((¬ ∃ (k : Nat) (r : Row), T[k]? = some r ∧ matchPet pid r = true ∧
          (find_row_by_child_name (some T) name).2 ≠ some ((k : Int) + 1)) →
        clearStep T name pid = T) := by
  have hp : find_row_by_pet_id (some T) pid = findLoop (matchPet pid) T 0 := by
    simp [find_row_by_pet_id, hd]
  have ho : find_row_by_child_name (some T) name
      = findLoop (matchId name) T 0 := rfl
  have hpne : pid ≠ "" := pyIsDigit_ne_empty hd
  constructor
  · intro k r hk hm hne
    rcases findLoop_shape (matchPet pid) T 0 with hP | ⟨r0, q0, hP⟩
    · have := (findLoop_notFound_iff (matchPet pid) T 0).mp hP r
        (List.mem_iff_getElem?.mpr ⟨k, hk⟩)
      rw [hm] at this
      cases this
    · rcases findLoop_found_parts hP with ⟨j, hj, hjpred, hjq, hjmin⟩
      have hjk : j = k := by
        by_contra hne2
        have := ownersInv_unique T k r pid hinv hk hm hpne j hne2 r0 hj
        rw [hjpred] at this
        cases this
      subst hjk
      unfold clearStep
      rw [hp, hP]
      dsimp only
      have hcond : (pyTruthyInt (some q0)
          && ((some q0 : Option Int) != (find_row_by_child_name (some T) name).2)) = true := by
        rw [Bool.and_eq_true, pyTruthyInt_some]
        constructor
        · rw [bne_iff_ne]
          omega
        · rw [bne_iff_ne]
          intro hcc
          rw [← hcc, hjq] at hne
          exact hne rfl
      rw [hcond]
      rw [if_pos rfl]
      rw [hjq, updateCellT_natSucc]
  · intro hno
    rcases findLoop_shape (matchPet pid) T 0 with hP | ⟨r0, q0, hP⟩
    · unfold clearStep
      rw [hp, hP]
      dsimp only
      rw [pyTruthyInt_none]
      rfl
    · rcases findLoop_found_parts hP with ⟨j, hj, hjpred, hjq, hjmin⟩
      have hoj : (find_row_by_child_name (some T) name).2 = some ((j : Int) + 1) := by
        by_contra hcc
        exact hno ⟨j, r0, hj, hjpred, hcc⟩
      unfold clearStep
      rw [hp, hP]
      dsimp only
      rw [hoj]
      have hcond : (pyTruthyInt (some q0)
          && ((some q0 : Option Int) != some ((j : Int) + 1))) = false := by
        rw [hjq]
        simp
      rw [hcond]
      rfl

/-- With no backend failures, the write phase always reports success. -/
theorem linkWritePhase_noFail_outcome (b : Backend) (name pid : String)
    (hnf : ∀ n, b.fails n = false) (hd : pyIsDigit pid = true) :
    (linkWritePhase b name pid).1 = .success := by
  unfold linkWritePhase
  rw [findByNameB_eq]
  rw [DB.get_owners]
  simp only [hnf, Bool.false_eq_true, if_false]
  rcases findLoop_shape (matchId name) b.db.owners 0 with hO | ⟨orow, oq, hO⟩
  · rw [hO]
    try dsimp only
    rw [findByPetB_eq_digit _ _ _ hd]
    try dsimp only
    rw [DB.get_owners]
    rcases findLoop_shape (matchPet pid) b.db.owners 0 with hP | ⟨r, q, hP⟩
    · rw [hP]
      simp [hnf, appendRowB_ok, pyTruthyInt_none, pyTruthyRow_none]
    · rw [hP]
      rcases findLoop_found_parts hP with ⟨k, hk, hpred, hq, hmin⟩
      rcases matchPet_shape hpred with ⟨a0, c0, t0, hr⟩
      have hq0 : (q != 0) = true := by
        rw [bne_iff_ne]
        omega
      rw [hr]
      simp [hnf, hq0, updateCellB_ok, appendRowB_ok, pyTruthyInt_some,
        pyTruthyRow_none]
  · rw [hO]
    try dsimp only
    rcases findLoop_found_parts hO with ⟨ok, hok, hopred, hoq, homin⟩
    have hone : ¬ ((some oq : Option Int) = some (-1)) := by
      simp
      omega
    rw [if_neg hone]
    try dsimp only
    rw [findByPetB_eq_digit _ _ _ hd]
    try dsimp only
    rw [DB.get_owners]
    have htro : pyTruthyRow (some orow) = true :=
      pyTruthyRow_of_ne_nil (matchId_ne_nil hopred)
    rcases findLoop_shape (matchPet pid) b.db.owners 0 with hP | ⟨r, q, hP⟩
    · rw [hP]
      simp [hnf, htro, updateCellB_ok, pyTruthyInt_none]
    · rw [hP]
      rcases findLoop_found_parts hP with ⟨k, hk, hpred, hq, hmin⟩
      rcases matchPet_shape hpred with ⟨a0, c0, t0, hr⟩
      rw [hr]
      by_cases hsame : q = oq
      · have hbne : ((some q : Option Int) != some oq) = false := by
          rw [hsame]
          simp
        simp [hnf, hbne, htro, updateCellB_ok]
      · have hq0 : (q != 0) = true := by
          rw [bne_iff_ne]
          omega
        have hbne : ((some q : Option Int) != some oq) = true := by
          rw [bne_iff_ne]
          intro hcc
          exact hsame (Option.some.inj hcc)
        simp [hnf, hq0, hbne, htro, updateCellB_ok, pyTruthyInt_some]

/-- c2: during the write phase of link, with the invariant holding and
every backend call succeeding, the operation succeeds and clears the
pet cell of another OwnerLink row (then performs step 8 on the cleared
table) precisely when a row holding the pet exists at a position other
than the resolved child row; when no such distinct row exists, step 8
runs on the unchanged table, so no other row is modified. -/
theorem claim_C2_clearing_condition (b : Backend) (name pid : String)
    (hnf : ∀ n, b.fails n = false) (hd : pyIsDigit pid = true)
    (hinv : ownersInv b.db.owners) :
    ∃ b', linkWritePhase b name pid = (.success, b') ∧
      (∀ (k : Nat) (r : Row), b.db.owners[k]? = some r →
          matchPet pid r = true →
          (find_row_by_child_name (some b.db.owners) name).2 ≠ some ((k : Int) + 1) →
          b'.db.owners
            = step8 (updateCell0 b.db.owners k 1 "") name pid
                (find_row_by_child_name (some b.db.owners) name).1
                (find_row_by_child_name (some b.db.owners) name).2) ∧
      ((¬ ∃ (k : Nat) (r : Row), b.db.owners[k]? = some r ∧
            matchPet pid r = true ∧
            (find_row_by_child_name (some b.db.owners) name).2 ≠ some ((k : Int) + 1)) →
          b'.db.owners
            = step8 b.db.owners name pid
                (find_row_by_child_name (some b.db.owners) name).1
                (find_row_by_child_name (some b.db.owners) name).2) := by
  have hout := linkWritePhase_noFail_outcome b name pid hnf hd
  have hrun : linkWritePhase b name pid
      = (.success, (linkWritePhase b name pid).2) := by
    rw [← hout]
  have htab := linkWritePhase_success b name pid
    (linkWritePhase b name pid).2 hd hrun
  refine ⟨(linkWritePhase b name pid).2, hrun, ?_, ?_⟩
  · intro k r hk hm hne
    rw [htab.1, writePure_decompose,
      (clearStep_spec b.db.owners name pid hd hinv).1 k r hk hm hne]
  · intro hno
    rw [htab.1, writePure_decompose,
      (clearStep_spec b.db.owners name pid hd hinv).2 hno]

/-- c2 witness: the clearing-condition theorem at the demonstration
state, linking pet 1 to the child named Ann Lee. -/
theorem claim_C2_witness :
    ∃ b', linkWritePhase demoBackend "Ann Lee" "1" = (.success, b') ∧
      (∀ (k : Nat) (r : Row), demoBackend.db.owners[k]? = some r →
          matchPet "1" r = true →
          (find_row_by_child_name (some demoBackend.db.owners) "Ann Lee").2
            ≠ some ((k : Int) + 1) →
          b'.db.owners
            = step8 (updateCell0 demoBackend.db.owners k 1 "") "Ann Lee" "1"
                (find_row_by_child_name (some demoBackend.db.owners) "Ann Lee").1
                (find_row_by_child_name (some demoBackend.db.owners) "Ann Lee").2) ∧
      ((¬ ∃ (k : Nat) (r : Row), demoBackend.db.owners[k]? = some r ∧
            matchPet "1" r = true ∧
            (find_row_by_child_name (some demoBackend.db.owners) "Ann Lee").2
              ≠ some ((k : Int) + 1)) →
          b'.db.owners
            = step8 demoBackend.db.owners "Ann Lee" "1"
                (find_row_by_child_name (some demoBackend.db.owners) "Ann Lee").1
                (find_row_by_child_name (some demoBackend.db.owners) "Ann Lee").2) :=
  claim_C2_clearing_condition demoBackend "Ann Lee" "1" (fun _ => rfl)
    (by decide) (by decide)

/-! ### The end-to-end scenario state -/

/-- Three header-only tables: the starting point of the end-to-end
scenario. -/
def startBackend : Backend :=
  ⟨⟨[["ID", "First Name", "Last Name", "Age"]],
    [["ID", "Nickname", "Age", "Type"]],
    [["Child Name", "Pet ID"]]⟩, noFails, 0, 0⟩

/-- c8: starting from three header-only tables, the scripted sequence
add-child (Ann, Lee, 10), add-pet (Rex, 3, p), link (child 1, pet 1,
confirmed), search-by-child 1, delete-pet 1 (confirmed), search-by-child
1 terminates with: child ID 1 assigned; pet ID 1 assigned with species
puppy; Owners gaining the row [Ann Lee, 1]; a report of pet Rex, ID 1,
type puppy, age 3; then an empty Pets table with the Owners row becoming
[Ann Lee, empty]; and finally a not-currently-linked report. -/
theorem claim_C8_end_to_end :
    (add_child startBackend ["Ann", "Lee", "10"]).1 = .success 1
    ∧ (add_child startBackend ["Ann", "Lee", "10"]).2.1.db.children
        = [["ID", "First Name", "Last Name", "Age"], ["1", "Ann", "Lee", "10"]]
    ∧ (add_pet (add_child startBackend ["Ann", "Lee", "10"]).2.1
        ["Rex", "3", "p"]).1 = .success 1
    ∧ (add_pet (add_child startBackend ["Ann", "Lee", "10"]).2.1
        ["Rex", "3", "p"]).2.1.db.pets
        = [["ID", "Nickname", "Age", "Type"], ["1", "Rex", "3", "puppy"]]
    ∧ (link_child_pet (add_pet (add_child startBackend ["Ann", "Lee", "10"]).2.1
        ["Rex", "3", "p"]).2.1 ["1", "1", "y"]).1 = .success
    ∧ (link_child_pet (add_pet (add_child startBackend ["Ann", "Lee", "10"]).2.1
        ["Rex", "3", "p"]).2.1 ["1", "1", "y"]).2.1.db.owners
        = [["Child Name", "Pet ID"], ["Ann Lee", "1"]]
    ∧ (search_by_child (link_child_pet (add_pet
        (add_child startBackend ["Ann", "Lee", "10"]).2.1
        ["Rex", "3", "p"]).2.1 ["1", "1", "y"]).2.1 ["1"]).1
        = .foundLink "1" "Rex" "puppy" "3"
    ∧ (delete_pet (search_by_child (link_child_pet (add_pet
        (add_child startBackend ["Ann", "Lee", "10"]).2.1
        ["Rex", "3", "p"]).2.1 ["1", "1", "y"]).2.1 ["1"]).2.1
        ["1", "y"]).1 = .success
    ∧ (delete_pet (search_by_child (link_child_pet (add_pet
        (add_child startBackend ["Ann", "Lee", "10"]).2.1
        ["Rex", "3", "p"]).2.1 ["1", "1", "y"]).2.1 ["1"]).2.1
        ["1", "y"]).2.1.db.pets = [["ID", "Nickname", "Age", "Type"]]
    ∧ (delete_pet (search_by_child (link_child_pet (add_pet
        (add_child startBackend ["Ann", "Lee", "10"]).2.1
        ["Rex", "3", "p"]).2.1 ["1", "1", "y"]).2.1 ["1"]).2.1
        ["1", "y"]).2.1.db.owners
        = [["Child Name", "Pet ID"], ["Ann Lee", ""]]
    ∧ (search_by_child (delete_pet (search_by_child (link_child_pet (add_pet
        (add_child startBackend ["Ann", "Lee", "10"]).2.1
        ["Rex", "3", "p"]).2.1 ["1", "1", "y"]).2.1 ["1"]).2.1
        ["1", "y"]).2.1 ["1"]).1 = .notLinked := by
  decide

/-- c9 counterexample: the empty string vacuously has every character an
ASCII digit, yet `validate_integer` rejects it, because the underlying
digit test is false on an empty string. -/
theorem claim_C9_counterexample :
    validate_integer "" = false
      ∧ ∀ c ∈ ("" : String).data, c.isDigit = true := by
  refine ⟨rfl, ?_⟩
  intro c hc
  exact absurd hc (List.not_mem_nil c)

/-- c9 (amended): `validate_integer s` is true iff `s` is non-empty and
every character of `s` is an ASCII decimal digit; `validate_range s lo hi`
is true iff `validate_integer s` holds and the parsed value lies in
`[lo, hi]`; consequently every in-range natural rendered in decimal
passes `validate_range` and every out-of-range one fails it. -/
theorem claim_C9_validation :
    (∀ s : String,
        validate_integer s = true
          ↔ (s ≠ "" ∧ ∀ c ∈ s.data, c.isDigit = true))
    ∧ (∀ (s : String) (lo hi : Int),
        validate_range s lo hi = true
          ↔ (validate_integer s = true
              ∧ lo ≤ (pyStrNat s : Int) ∧ (pyStrNat s : Int) ≤ hi))
    ∧ (∀ (v : Nat) (lo hi : Int), lo ≤ (v : Int) → (v : Int) ≤ hi →
        validate_range (Nat.repr v) lo hi = true)
    ∧ (∀ (v : Nat) (lo hi : Int), ((v : Int) < lo ∨ hi < (v : Int)) →
        validate_range (Nat.repr v) lo hi = false) := by
  have hiff : ∀ s : String,
      validate_integer s = true ↔ (s ≠ "" ∧ ∀ c ∈ s.data, c.isDigit = true) := by
    intro s
    unfold validate_integer pyIsDigit
    rw [Bool.and_eq_true]
    constructor
    · rintro ⟨h1, h2⟩
      refine ⟨?_, ?_⟩
      · intro hcc
        rw [hcc] at h1
        exact absurd h1 (by decide)
      · intro c hc
        exact List.all_eq_true.mp h2 c hc
    · rintro ⟨h1, h2⟩
      refine ⟨?_, List.all_eq_true.mpr h2⟩
      cases hx : s.data.isEmpty with
      | false => rfl
      | true =>
        exact absurd (String.ext (List.isEmpty_iff.mp hx)) h1
  have hriff : ∀ (s : String) (lo hi : Int),
      validate_range s lo hi = true
        ↔ (validate_integer s = true
            ∧ lo ≤ (pyStrNat s : Int) ∧ (pyStrNat s : Int) ≤ hi) := by
    intro s lo hi
    unfold validate_range
    cases hx : pyIsDigit s with
    | false =>
      simp only [hx, Bool.not_false, if_true]
      constructor
      · intro hcc
        cases hcc
      · rintro ⟨h1, _⟩
        rw [show validate_integer s = pyIsDigit s from rfl, hx] at h1
        cases h1
    | true =>
      simp only [hx, Bool.not_true, Bool.false_eq_true, if_false,
        Bool.and_eq_true, decide_eq_true_eq]
      constructor
      · rintro ⟨h1, h2⟩
        exact ⟨hx, h1, h2⟩
      · rintro ⟨_, h1, h2⟩
        exact ⟨h1, h2⟩
  refine ⟨hiff, hriff, ?_, ?_⟩
  · intro v lo hi h1 h2
    rw [hriff]
    refine ⟨?_, ?_, ?_⟩
    · rw [show validate_integer (Nat.repr v) = pyIsDigit (Nat.repr v) from rfl]
      exact pyIsDigit_repr v
    · rw [pyStrNat_repr]
      exact h1
    · rw [pyStrNat_repr]
      exact h2
  · intro v lo hi h1
    cases hx : validate_range (Nat.repr v) lo hi with
    | false => rfl
    | true =>
      rw [hriff] at hx
      rw [pyStrNat_repr] at hx
      rcases hx with ⟨_, h2, h3⟩
      rcases h1 with h1 | h1
      · omega
      · omega

/-! ### The allocator as a maximum over parseable ID cells -/

/-- The parseable ID of a data row: the decimal value of its first
cell when that cell is a digit string. -/
def rowId? (r : Row) : Option Nat :=
  match r with
  | [] => none
  | c :: _ => if pyIsDigit c then some (pyStrNat c) else none

theorem maxIdLoop_eq (l : List Row) :
    ∀ acc : Nat, maxIdLoop l acc
      = Nat.max acc ((l.filterMap rowId?).foldr Nat.max 0) := by
  induction l with
  | nil =>
    intro acc
    simp [maxIdLoop]
  | cons row rest ih =>
    intro acc
    cases row with
    | nil =>
      simp [maxIdLoop, rowId?, List.filterMap_cons, ih]
    | cons c cs =>
      cases hx : pyIsDigit c with
      | false =>
        simp [maxIdLoop, rowId?, hx, List.filterMap_cons, ih]
      | true =>
        simp [maxIdLoop, rowId?, hx, List.filterMap_cons, ih]
        exact Nat.max_assoc acc (pyStrNat c)
          (List.foldr Nat.max 0 (List.filterMap rowId? rest))

/-- c6: the allocator returns 1 for a header-only table and otherwise 1
plus the maximum over the first-column cells of data rows that parse as
integers, ignoring non-digit cells; concretely IDs 1, 3, 4 give 5 and a
corrupted cell interleaved with valid ones is ignored; a failed scan
yields the sentinel, and the add-child caller aborts on it with the
database and write count untouched instead of defaulting to 1. -/
theorem claim_C6_next_id :
    get_next_id none = none
    ∧ (∀ t : Table, get_next_id (some t)
        = some (if (t.drop 1).isEmpty = true then 1
                else ((t.drop 1).filterMap rowId?).foldr Nat.max 0 + 1))
    ∧ get_next_id (some [["ID", "First Name", "Last Name", "Age"],
        ["1", "A", "B", "10"], ["3", "C", "D", "9"], ["4", "E", "F", "8"]])
        = some 5
    ∧ get_next_id (some [["ID"], ["1"], ["corrupt"], ["3"]]) = some 4
    ∧ (∀ b : Backend, b.fails b.calls = true →
        (add_child b ["Ann", "Lee", "10"]).1 = .idError
        ∧ (add_child b ["Ann", "Lee", "10"]).2.1.db = b.db
        ∧ (add_child b ["Ann", "Lee", "10"]).2.1.writes = b.writes) := by
  refine ⟨rfl, ?_, by decide, by decide, ?_⟩
  · intro t
    cases hx : (t.drop 1).isEmpty with
    | true =>
      have h0 : t.drop 1 = [] := List.isEmpty_iff.mp hx
      simp [get_next_id, h0]
    | false =>
      unfold get_next_id
      dsimp only
      rw [hx]
      simp only [Bool.false_eq_true, if_false]
      rw [maxIdLoop_eq]
      exact congrArg (fun m => some (m + 1)) (Nat.max_eq_right (Nat.zero_le _))
  · intro b hf
    have h2 : (pyCapitalize (pyStrip "Ann")).isEmpty = false := by decide
    have h3 : (pyCapitalize (pyStrip "Lee")).isEmpty = false := by decide
    have h4 : validate_input (fun x => validate_range x 5 18) ["10"]
        = some ("10", []) := by decide
    refine ⟨?_, ?_, ?_⟩ <;>
      simp [add_child, h2, h3, h4, scanAll_eq, hf, get_next_id]

/-- c7: the ID locator rejects non-digit IDs with not-found for every
scan outcome; on a digit ID a failed scan gives the error sentinel;
a found result is exactly the earliest row whose first cell equals the
ID verbatim, at its 1-based position; not-found is exactly the absence
of any matching row; and two consecutive calls through the backend with
no intervening writes return identical locator results. -/
theorem claim_C7_find_by_id :
    (∀ (scan : Option Table) (id : String), pyIsDigit id = false →
        find_row_by_id scan id = (none, none))
    ∧ (∀ id : String, pyIsDigit id = true →
        find_row_by_id none id = (none, some (-1)))
    ∧ (∀ (t : Table) (id : String) (r : Row) (q : Int), pyIsDigit id = true →
        (find_row_by_id (some t) id = (some r, some q)
          ↔ ∃ k : Nat, t[k]? = some r ∧ matchId id r = true
              ∧ q = (k : Int) + 1
              ∧ ∀ m : Nat, m < k → ∀ s, t[m]? = some s → matchId id s = false))
    ∧ (∀ (t : Table) (id : String), pyIsDigit id = true →
        (find_row_by_id (some t) id = (none, none)
          ↔ ∀ r ∈ t, matchId id r = false))
    ∧ (∀ (b : Backend) (s : Sheet) (id : String),
        b.fails b.calls = false → b.fails (b.calls + 1) = false →
        (findByIdB (findByIdB b s id).2 s id).1 = (findByIdB b s id).1) := by
  refine ⟨?_, ?_, ?_, ?_, ?_⟩
  · intro scan id h
    simp [find_row_by_id, h]
  · intro id h
    simp [find_row_by_id, h]
  · intro t id r q h
    have he : find_row_by_id (some t) id = findLoop (matchId id) t 0 := by
      simp [find_row_by_id, h]
    rw [he, findLoop_found_iff]
    constructor
    · rintro ⟨k, h1, h2, h3, h4⟩
      exact ⟨k, h1, h2, by omega, h4⟩
    · rintro ⟨k, h1, h2, h3, h4⟩
      exact ⟨k, h1, h2, by omega, h4⟩
  · intro t id h
    have he : find_row_by_id (some t) id = findLoop (matchId id) t 0 := by
      simp [find_row_by_id, h]
    rw [he]
    exact findLoop_notFound_iff _ _ _
  · intro b s id h1 h2
    cases hd : pyIsDigit id with
    | false => simp [findByIdB, hd]
    | true =>
      rw [findByIdB_eq_digit _ _ _ hd]
      try dsimp only
      rw [findByIdB_eq_digit _ _ _ hd]
      try dsimp only
      rw [h1, h2]

/-- c10: on tables with rows of arbitrary lengths, each locator always
produces one of its three outcome shapes, and a found result always
points 1-based at a row of the table with enough cells for the guard
that matched it — at least one cell for the first-column locators, at
least two for the pet locator — so empty and too-short rows are skipped
and no row is ever indexed out of bounds. -/
theorem claim_C10_locator_totality :
    (∀ (scan : Option Table) (v : String),
        find_row_by_id scan v = (none, none)
        ∨ find_row_by_id scan v = (none, some (-1))
        ∨ ∃ r q, find_row_by_id scan v = (some r, some q))
    ∧ (∀ (scan : Option Table) (v : String),
        find_row_by_child_name scan v = (none, none)
        ∨ find_row_by_child_name scan v = (none, some (-1))
        ∨ ∃ r q, find_row_by_child_name scan v = (some r, some q))
    ∧ (∀ (scan : Option Table) (v : String),
        find_row_by_pet_id scan v = (none, none)
        ∨ find_row_by_pet_id scan v = (none, some (-1))
        ∨ ∃ r q, find_row_by_pet_id scan v = (some r, some q))
    ∧ (∀ (t : Table) (v : String) (r : Row) (q : Int),
        find_row_by_id (some t) v = (some r, some q) →
        ∃ k : Nat, q = (k : Int) + 1 ∧ t[k]? = some r ∧ 1 ≤ r.length)
    ∧ (∀ (t : Table) (v : String) (r : Row) (q : Int),
        find_row_by_child_name (some t) v = (some r, some q) →
        ∃ k : Nat, q = (k : Int) + 1 ∧ t[k]? = some r ∧ 1 ≤ r.length)
    ∧ (∀ (t : Table) (v : String) (r : Row) (q : Int),
        find_row_by_pet_id (some t) v = (some r, some q) →
        ∃ k : Nat, q = (k : Int) + 1 ∧ t[k]? = some r ∧ 2 ≤ r.length) := by
  refine ⟨?_, ?_, ?_, ?_, ?_, ?_⟩
  · intro scan v
    cases hd : pyIsDigit v with
    | false =>
      left
      simp [find_row_by_id, hd]
    | true =>
      cases scan with
      | none =>
        right
        left
        simp [find_row_by_id, hd]
      | some t =>
        have he : find_row_by_id (some t) v = findLoop (matchId v) t 0 := by
          simp [find_row_by_id, hd]
        rw [he]
        rcases findLoop_shape (matchId v) t 0 with h | ⟨r, q, h⟩
        · left
          exact h
        · right
          right
          exact ⟨r, q, h⟩
  · intro scan v
    cases scan with
    | none =>
      right
      left
      rfl
    | some t =>
      have he : find_row_by_child_name (some t) v = findLoop (matchId v) t 0 := rfl
      rw [he]
      rcases findLoop_shape (matchId v) t 0 with h | ⟨r, q, h⟩
      · left
        exact h
      · right
        right
        exact ⟨r, q, h⟩
  · intro scan v
    cases hd : pyIsDigit v with
    | false =>
      left
      simp [find_row_by_pet_id, hd]
    | true =>
      cases scan with
      | none =>
        right
        left
        simp [find_row_by_pet_id, hd]
      | some t =>
        have he : find_row_by_pet_id (some t) v = findLoop (matchPet v) t 0 := by
          simp [find_row_by_pet_id, hd]
        rw [he]
        rcases findLoop_shape (matchPet v) t 0 with h | ⟨r, q, h⟩
        · left
          exact h
        · right
          right
          exact ⟨r, q, h⟩
  · intro t v r q h
    cases hd : pyIsDigit v with
    | false =>
      rw [show find_row_by_id (some t) v = (none, none) from by
        simp [find_row_by_id, hd]] at h
      cases h
    | true =>
      rw [show find_row_by_id (some t) v = findLoop (matchId v) t 0 from by
        simp [find_row_by_id, hd]] at h
      rcases (findLoop_found_iff _ _ _ _ _).mp h with ⟨k, hk, hpred, hq, _⟩
      exact ⟨k, by omega, hk, List.length_pos.mpr (matchId_ne_nil hpred)⟩
  · intro t v r q h
    rw [show find_row_by_child_name (some t) v = findLoop (matchId v) t 0
      from rfl] at h
    rcases (findLoop_found_iff _ _ _ _ _).mp h with ⟨k, hk, hpred, hq, _⟩
    exact ⟨k, by omega, hk, List.length_pos.mpr (matchId_ne_nil hpred)⟩
  · intro t v r q h
    cases hd : pyIsDigit v with
    | false =>
      rw [show find_row_by_pet_id (some t) v = (none, none) from by
        simp [find_row_by_pet_id, hd]] at h
      cases h
    | true =>
      rw [show find_row_by_pet_id (some t) v = findLoop (matchPet v) t 0 from by
        simp [find_row_by_pet_id, hd]] at h
      rcases (findLoop_found_iff _ _ _ _ _).mp h with ⟨k, hk, hpred, hq, _⟩
      rcases matchPet_shape hpred with ⟨a0, c0, t0, hr⟩
      refine ⟨k, by omega, hk, ?_⟩
      rw [hr]
      simp

/-! ### The one-OwnerLink-row-per-name invariant and row deletion -/

theorem DB.get_children (db : DB) : db.get .children = db.children := rfl

theorem DB.get_pets (db : DB) : db.get .pets = db.pets := rfl

theorem DB.set_children_children (db : DB) (T : Table) :
    (db.set .children T).children = T := rfl

theorem DB.set_children_owners (db : DB) (T : Table) :
    (db.set .children T).owners = db.owners := rfl

theorem DB.set_children_pets (db : DB) (T : Table) :
    (db.set .children T).pets = db.pets := rfl

theorem DB.set_pets_children (db : DB) (T : Table) :
    (db.set .pets T).children = db.children := rfl

theorem DB.set_pets_owners (db : DB) (T : Table) :
    (db.set .pets T).owners = db.owners := rfl

theorem DB.set_pets_pets (db : DB) (T : Table) :
    (db.set .pets T).pets = T := rfl

theorem eraseRowT_natSucc (T : Table) (k : Nat) :
    eraseRowT T ((k : Int) + 1) = T.eraseIdx k := by
  unfold eraseRowT
  rw [if_neg (by omega)]
  have h1 : ((k : Int) + 1 - 1).toNat = k := by omega
  rw [h1]

/-- The first cell of a row, when the row has one (the key column of an
OwnerLink row). -/
def rowKey? (r : Row) : Option String :=
  match r with
  | c :: _ => some c
  | [] => none

theorem matchId_iff_rowKey? (n : String) (r : Row) :
    matchId n r = true ↔ rowKey? r = some n := by
  match r with
  | [] =>
    simp [show matchId n ([] : Row) = false from rfl,
          show rowKey? ([] : Row) = none from rfl]
  | c :: t =>
    simp [show matchId n (c :: t) = (c == n) from rfl,
          show rowKey? (c :: t) = some c from rfl]

/-- Two OwnerLink rows collide on the key column when their first cells
hold the same value. -/
def clashName (r s : Row) : Bool :=
  match rowKey? r, rowKey? s with
  | some a, some c => a == c
  | _, _ => false

/-- The one-row-per-name invariant of the Owners table: no two rows hold
the same first cell. -/
def namesInv (T : Table) : Prop :=
  List.Pairwise (fun r s => clashName r s = false) T

instance namesInv.instDecidable (T : Table) : Decidable (namesInv T) :=
  inferInstanceAs (Decidable (List.Pairwise _ T))

theorem clashName_true_of_both (r s : Row) (v : String)
    (hr : rowKey? r = some v) (hs : rowKey? s = some v) :
    clashName r s = true := by
  simp [clashName, hr, hs]

theorem namesInv_iff (T : Table) :
    namesInv T ↔ ∀ i j : Nat, i < j → ∀ r s, T[i]? = some r →
      T[j]? = some s → clashName r s = false := by
  rw [namesInv, List.pairwise_iff_getElem]
  constructor
  · intro h i j hij r s hr hs
    have hj : j < T.length := (List.getElem?_eq_some.mp hs).1
    have hi : i < T.length := (List.getElem?_eq_some.mp hr).1
    have := h i j hi hj hij
    rw [List.getElem?_eq_getElem hi] at hr
    rw [List.getElem?_eq_getElem hj] at hs
    rw [← Option.some.inj hr, ← Option.some.inj hs]
    exact this
  · intro h i j hi hj hij
    exact h i j hij _ _ (List.getElem?_eq_getElem hi) (List.getElem?_eq_getElem hj)

/-- Under the one-row-per-name invariant, a row keyed by a name makes
every other position a non-match of that name. -/
theorem namesInv_unique (T : Table) (k : Nat) (r : Row) (nm : String)
    (hinv : namesInv T) (hk : T[k]? = some r) (hm : matchId nm r = true) :
    ∀ m : Nat, m ≠ k → ∀ s, T[m]? = some s → matchId nm s = false := by
  intro m hne s hs
  rw [namesInv_iff] at hinv
  by_contra hcon
  have hms : matchId nm s = true := by
    cases hx : matchId nm s with
    | false => exact absurd hx hcon
    | true => rfl
  have hr : rowKey? r = some nm := (matchId_iff_rowKey? nm r).mp hm
  have hs2 : rowKey? s = some nm := (matchId_iff_rowKey? nm s).mp hms
  rcases Nat.lt_or_ge m k with hlt | hge
  · have := hinv m k hlt s r hs hk
    rw [clashName_true_of_both s r nm hs2 hr] at this
    cases this
  · have hkm : k < m := by omega
    have := hinv k m hkm r s hk hs
    rw [clashName_true_of_both r s nm hr hs2] at this
    cases this

/-- Deleting the unique row keyed by a name leaves no row keyed by it. -/
theorem eraseIdx_no_match (T : Table) (j : Nat) (orow : Row) (nm : String)
    (hinv : namesInv T) (hj : T[j]? = some orow)
    (hm : matchId nm orow = true) :
    ∀ (k : Nat) (row : Row), (T.eraseIdx j)[k]? = some row →
      matchId nm row = false := by
  intro k row hk
  rw [List.getElem?_eraseIdx] at hk
  by_cases hlt : k < j
  · rw [if_pos hlt] at hk
    exact namesInv_unique T j orow nm hinv hj hm k (by omega) row hk
  · rw [if_neg hlt] at hk
    exact namesInv_unique T j orow nm hinv hj hm (k + 1) (by omega) row hk

/-! ### Frame lemmas: each write call touches only its own worksheet -/

theorem DB.set_get_ne (db : DB) (s s2 : Sheet) (t : Table) (h : s2 ≠ s) :
    (db.set s t).get s2 = db.get s2 := by
  cases s <;> cases s2 <;> first | rfl | exact absurd rfl h

theorem findByIdB_snd_db (b : Backend) (s : Sheet) (p : String) :
    (findByIdB b s p).2.db = b.db := by
  cases hd : pyIsDigit p <;> simp [findByIdB_snd, hd]

theorem findByNameB_snd_db (b : Backend) (s : Sheet) (n : String) :
    (findByNameB b s n).2.db = b.db := by
  rw [findByNameB_snd]

theorem findByPetB_snd_db (b : Backend) (s : Sheet) (p : String) :
    (findByPetB b s p).2.db = b.db := by
  cases hd : pyIsDigit p <;> simp [findByPetB_snd, hd]

theorem deleteRowB_get_ne (x : Backend) (s s2 : Sheet) (i : Int)
    (h : s2 ≠ s) :
    (deleteRowB x s i).2.db.get s2 = x.db.get s2 := by
  cases hf : x.fails x.calls with
  | true => rw [deleteRowB_fail _ _ _ hf]
  | false =>
    rw [deleteRowB_ok _ _ _ hf]
    exact DB.set_get_ne x.db s s2 _ h

theorem updateCellB_get_ne (x : Backend) (s s2 : Sheet) (i j : Int)
    (v : String) (h : s2 ≠ s) :
    (updateCellB x s i j v).2.db.get s2 = x.db.get s2 := by
  cases hf : x.fails x.calls with
  | true => rw [updateCellB_fail _ _ _ _ _ hf]
  | false =>
    rw [updateCellB_ok _ _ _ _ _ hf]
    exact DB.set_get_ne x.db s s2 _ h


theorem deleteRowB_children_pets (x : Backend) (i : Int) :
    (deleteRowB x .children i).2.db.pets = x.db.pets :=
  deleteRowB_get_ne x .children .pets i (by decide)

theorem deleteRowB_owners_pets (x : Backend) (i : Int) :
    (deleteRowB x .owners i).2.db.pets = x.db.pets :=
  deleteRowB_get_ne x .owners .pets i (by decide)

theorem deleteRowB_pets_children (x : Backend) (i : Int) :
    (deleteRowB x .pets i).2.db.children = x.db.children :=
  deleteRowB_get_ne x .pets .children i (by decide)

theorem updateCellB_owners_children (x : Backend) (i j : Int) (v : String) :
    (updateCellB x .owners i j v).2.db.children = x.db.children :=
  updateCellB_get_ne x .owners .children i j v (by decide)

/-- Delete-child never writes to the Pets worksheet, whatever the
backend does and whatever the console holds. -/
theorem delete_child_pets (b : Backend) (script : List String) :
    (delete_child b script).2.1.db.pets = b.db.pets := by
  unfold delete_child
  rcases hv : validate_input validate_integer script with - | ⟨cid, rest⟩
  · rfl
  · try dsimp only
    by_cases h1 : (findByIdB b .children cid).1.2 = some (-1)
    · rw [if_pos h1]
      try dsimp only
      rw [findByIdB_snd_db]
    · rw [if_neg h1]
      try dsimp only
      by_cases h2 : (!pyTruthyRow (findByIdB b .children cid).1.1) = true
      · rw [if_pos h2]
        try dsimp only
        rw [findByIdB_snd_db]
      · rw [if_neg h2]
        try dsimp only
        rcases hc : (findByIdB b .children cid).1.1 with - |
            ⟨- | ⟨a0, - | ⟨a1, - | ⟨a2, - | ⟨a3, tl⟩⟩⟩⟩⟩
        · try dsimp only
          rw [findByIdB_snd_db]
        · try dsimp only
          rw [findByIdB_snd_db]
        · try dsimp only
          rw [findByIdB_snd_db]
        · try dsimp only
          rw [findByIdB_snd_db]
        · try dsimp only
          rw [findByIdB_snd_db]
        · try dsimp only
          rcases hcf : confirm_action rest with - | ⟨flag, rest2⟩
          · try dsimp only
            rw [findByIdB_snd_db]
          · cases flag with
            | false =>
              try dsimp only
              rw [findByIdB_snd_db]
            | true =>
              try dsimp only
              rcases hi : (findByIdB b .children cid).1.2 with - | idx
              · try dsimp only
                rw [findByIdB_snd_db]
              · try dsimp only
                by_cases h3 :
                    (!(deleteRowB (findByIdB b .children cid).2 .children idx).1)
                      = true
                · rw [if_pos h3]
                  try dsimp only
                  rw [deleteRowB_children_pets, findByIdB_snd_db]
                · rw [if_neg h3]
                  try dsimp only
                  by_cases h4 :
                      (findByNameB (deleteRowB (findByIdB b .children cid).2
                          .children idx).2 .owners (a1 ++ " " ++ a2)).1.2
                        = some (-1)
                  · rw [if_pos h4]
                    try dsimp only
                    rw [findByNameB_snd_db, deleteRowB_children_pets,
                      findByIdB_snd_db]
                  · rw [if_neg h4]
                    try dsimp only
                    by_cases h5 : pyTruthyRow (findByNameB (deleteRowB
                        (findByIdB b .children cid).2 .children idx).2 .owners
                        (a1 ++ " " ++ a2)).1.1 = true
                    · rw [if_pos h5]
                      try dsimp only
                      rcases ho : (findByNameB (deleteRowB
                          (findByIdB b .children cid).2 .children idx).2 .owners
                          (a1 ++ " " ++ a2)).1.2 with - | oidx
                      · try dsimp only
                        rw [findByNameB_snd_db, deleteRowB_children_pets,
                          findByIdB_snd_db]
                      · try dsimp only
                        by_cases h6 : (deleteRowB (findByNameB (deleteRowB
                            (findByIdB b .children cid).2 .children idx).2 .owners
                            (a1 ++ " " ++ a2)).2 .owners oidx).1 = true
                        · rw [if_pos h6]
                          try dsimp only
                          rw [deleteRowB_owners_pets, findByNameB_snd_db,
                            deleteRowB_children_pets, findByIdB_snd_db]
                        · rw [if_neg h6]
                          try dsimp only
                          rw [deleteRowB_owners_pets, findByNameB_snd_db,
                            deleteRowB_children_pets, findByIdB_snd_db]
                    · rw [if_neg h5]
                      try dsimp only
                      rw [findByNameB_snd_db, deleteRowB_children_pets,
                        findByIdB_snd_db]

/-- c4: deleting an existing, confirmed child removes the Children row
at its reported position; when the follow-up Owners lookup and delete
succeed, the OwnerLink row keyed by the full name is deleted entirely,
so under the one-row-per-name invariant no Owners row keyed by that
name remains; when the post-delete Owners lookup fails at the backend
the operation reports the warned outcome with the committed Children
deletion kept and Owners untouched; and delete-child never modifies the
Pets table. -/
theorem claim_C4_delete_child_cascade
    (b : Backend) (script rest1 rest2 : List String) (cid : String)
    (c0 fn ln c3 : String) (tl : List String) (pos : Int)
    (hval : validate_input validate_integer script = some (cid, rest1))
    (hdig : pyIsDigit cid = true)
    (hconf : confirm_action rest1 = some (true, rest2))
    (hfound : findLoop (matchId cid) b.db.children 0
      = (some (c0 :: fn :: ln :: c3 :: tl), some pos))
    (hinv : namesInv b.db.owners)
    (hf0 : b.fails b.calls = false)
    (hf1 : b.fails (b.calls + 1) = false) :
    (b.fails (b.calls + 2) = false → b.fails (b.calls + 3) = false →
      ((delete_child b script).1 = .success
          ∨ (delete_child b script).1 = .successNoLink)
      ∧ (delete_child b script).2.1.db.children
          = eraseRowT b.db.children pos
      ∧ (∀ (k : Nat) (row : Row),
          (delete_child b script).2.1.db.owners[k]? = some row →
          matchId (fn ++ " " ++ ln) row = false))
    ∧ (b.fails (b.calls + 2) = true →
      (delete_child b script).1 = .warnedSuccess
      ∧ (delete_child b script).2.1.db.children
          = eraseRowT b.db.children pos
      ∧ (delete_child b script).2.1.db.owners = b.db.owners)
    ∧ (∀ (b2 : Backend) (s2 : List String),
        (delete_child b2 s2).2.1.db.pets = b2.db.pets) := by
  rcases findLoop_found_parts hfound with ⟨k0, hk0get, hk0m, hk0q, -⟩
  have hsent : ¬ ((some pos : Option Int) = some (-1)) := by
    intro hcc
    have := Option.some.inj hcc
    omega
  have htro : pyTruthyRow (some (c0 :: fn :: ln :: c3 :: tl)) = true := rfl
  refine ⟨?_, ?_, fun b2 s2 => delete_child_pets b2 s2⟩
  · intro hf2 hf3
    unfold delete_child
    rw [hval]
    try dsimp only
    rw [findByIdB_eq_digit _ _ _ hdig, DB.get_children]
    try dsimp only
    rw [hf0]
    simp only [Bool.false_eq_true, if_false]
    rw [hfound]
    try dsimp only
    rw [if_neg hsent]
    try dsimp only
    rw [htro]
    simp only [Bool.not_true, Bool.false_eq_true, if_false]
    try dsimp only
    rw [hconf]
    try dsimp only
    rcases findLoop_shape (matchId (fn ++ " " ++ ln)) b.db.owners 0
      with hO | ⟨orow, oq, hO⟩
    · refine ⟨?_, ?_, ?_⟩ <;>
        simp [deleteRowB_ok, findByNameB_eq, hf1, hf2, hO,
          DB.get_owners, DB.get_children, DB.set_children_owners,
          DB.set_children_children, pyTruthyRow_none]
      intro k row hk
      exact (findLoop_notFound_iff _ _ _).mp hO row
        (List.mem_iff_getElem?.mpr ⟨k, hk⟩)
    · rcases findLoop_found_parts hO with ⟨m, hmget, hmm, hmq, -⟩
      have hosent : ¬ ((some oq : Option Int) = some (-1)) := by
        intro hcc
        have := Option.some.inj hcc
        omega
      have htro2 : pyTruthyRow (some orow) = true :=
        pyTruthyRow_of_ne_nil (matchId_ne_nil hmm)
      refine ⟨?_, ?_, ?_⟩
      · simp [deleteRowB_ok, findByNameB_eq, hf1, hf2, hf3, hO, hosent,
          htro2, DB.get_owners, DB.get_children, DB.set_children_owners,
          DB.set_children_children, DB.set_owners_owners]
      · simp [deleteRowB_ok, findByNameB_eq, hf1, hf2, hf3, hO, hosent,
          htro2, DB.get_owners, DB.get_children, DB.set_children_owners,
          DB.set_children_children, DB.set_owners_children,
          DB.set_owners_owners]
      · simp [deleteRowB_ok, findByNameB_eq, hf1, hf2, hf3, hO, hosent,
          htro2, DB.get_owners, DB.get_children, DB.set_children_owners,
          DB.set_children_children, DB.set_owners_owners]
        intro k row hk
        try rw [hmq] at hk
        rw [eraseRowT_natSucc] at hk
        exact eraseIdx_no_match b.db.owners m orow (fn ++ " " ++ ln)
          hinv hmget hmm k row hk
  · intro hf2
    unfold delete_child
    rw [hval]
    try dsimp only
    rw [findByIdB_eq_digit _ _ _ hdig, DB.get_children]
    try dsimp only
    rw [hf0]
    simp only [Bool.false_eq_true, if_false]
    rw [hfound]
    try dsimp only
    rw [if_neg hsent]
    try dsimp only
    rw [htro]
    simp only [Bool.not_true, Bool.false_eq_true, if_false]
    try dsimp only
    rw [hconf]
    try dsimp only
    refine ⟨?_, ?_, ?_⟩ <;>
      simp [deleteRowB_ok, findByNameB_eq, hf1, hf2,
        DB.get_owners, DB.get_children, DB.set_children_owners,
        DB.set_children_children]

/-- c4 witness: the cascade theorem at the demonstration state, deleting
child 1 (Ann Lee) with a confirmed prompt. -/
theorem claim_C4_witness :
    (demoBackend.fails (demoBackend.calls + 2) = false →
      demoBackend.fails (demoBackend.calls + 3) = false →
      ((delete_child demoBackend ["1", "y"]).1 = .success
          ∨ (delete_child demoBackend ["1", "y"]).1 = .successNoLink)
      ∧ (delete_child demoBackend ["1", "y"]).2.1.db.children
          = eraseRowT demoBackend.db.children 2
      ∧ (∀ (k : Nat) (row : Row),
          (delete_child demoBackend ["1", "y"]).2.1.db.owners[k]? = some row →
          matchId ("Ann" ++ " " ++ "Lee") row = false))
    ∧ (demoBackend.fails (demoBackend.calls + 2) = true →
      (delete_child demoBackend ["1", "y"]).1 = .warnedSuccess
      ∧ (delete_child demoBackend ["1", "y"]).2.1.db.children
          = eraseRowT demoBackend.db.children 2
      ∧ (delete_child demoBackend ["1", "y"]).2.1.db.owners
          = demoBackend.db.owners)
    ∧ (∀ (b2 : Backend) (s2 : List String),
        (delete_child b2 s2).2.1.db.pets = b2.db.pets) :=
  claim_C4_delete_child_cascade demoBackend ["1", "y"] ["y"] [] "1"
    "1" "Ann" "Lee" "10" [] 2 (by decide) (by decide) (by decide)
    (by decide) (by decide) rfl rfl

/-- Delete-pet never writes to the Children worksheet, whatever the
backend does and whatever the console holds. -/
theorem delete_pet_children (b : Backend) (script : List String) :
    (delete_pet b script).2.1.db.children = b.db.children := by
  unfold delete_pet
  rcases hv : validate_input validate_integer script with - | ⟨pid, rest⟩
  · rfl
  · try dsimp only
    by_cases h1 : (findByIdB b .pets pid).1.2 = some (-1)
    · rw [if_pos h1]
      try dsimp only
      rw [findByIdB_snd_db]
    · rw [if_neg h1]
      try dsimp only
      by_cases h2 : (!pyTruthyRow (findByIdB b .pets pid).1.1) = true
      · rw [if_pos h2]
        try dsimp only
        rw [findByIdB_snd_db]
      · rw [if_neg h2]
        try dsimp only
        rcases hc : (findByIdB b .pets pid).1.1 with - |
            ⟨- | ⟨a0, - | ⟨a1, - | ⟨a2, - | ⟨a3, tl⟩⟩⟩⟩⟩
        · try dsimp only
          rw [findByIdB_snd_db]
        · try dsimp only
          rw [findByIdB_snd_db]
        · try dsimp only
          rw [findByIdB_snd_db]
        · try dsimp only
          rw [findByIdB_snd_db]
        · try dsimp only
          rw [findByIdB_snd_db]
        · try dsimp only
          rcases hcf : confirm_action rest with - | ⟨flag, rest2⟩
          · try dsimp only
            rw [findByIdB_snd_db]
          · cases flag with
            | false =>
              try dsimp only
              rw [findByIdB_snd_db]
            | true =>
              try dsimp only
              rcases hi : (findByIdB b .pets pid).1.2 with - | idx
              · try dsimp only
                rw [findByIdB_snd_db]
              · try dsimp only
                by_cases h3 :
                    (!(deleteRowB (findByIdB b .pets pid).2 .pets idx).1) = true
                · rw [if_pos h3]
                  try dsimp only
                  rw [deleteRowB_pets_children, findByIdB_snd_db]
                · rw [if_neg h3]
                  try dsimp only
                  by_cases h4 : (findByPetB (deleteRowB (findByIdB b .pets pid).2
                      .pets idx).2 .owners pid).1.2 = some (-1)
                  · rw [if_pos h4]
                    try dsimp only
                    rw [findByPetB_snd_db, deleteRowB_pets_children,
                      findByIdB_snd_db]
                  · rw [if_neg h4]
                    try dsimp only
                    by_cases h5 : pyTruthyRow (findByPetB (deleteRowB
                        (findByIdB b .pets pid).2 .pets idx).2 .owners
                        pid).1.1 = true
                    · rw [if_pos h5]
                      try dsimp only
                      rcases ho : (findByPetB (deleteRowB
                          (findByIdB b .pets pid).2 .pets idx).2 .owners
                          pid).1.2 with - | oidx
                      · try dsimp only
                        rw [findByPetB_snd_db, deleteRowB_pets_children,
                          findByIdB_snd_db]
                      · try dsimp only
                        by_cases h6 : (updateCellB (findByPetB (deleteRowB
                            (findByIdB b .pets pid).2 .pets idx).2 .owners
                            pid).2 .owners oidx 2 "").1 = true
                        · rw [if_pos h6]
                          try dsimp only
                          rw [updateCellB_owners_children, findByPetB_snd_db,
                            deleteRowB_pets_children, findByIdB_snd_db]
                        · rw [if_neg h6]
                          try dsimp only
                          rw [updateCellB_owners_children, findByPetB_snd_db,
                            deleteRowB_pets_children, findByIdB_snd_db]
                    · rw [if_neg h5]
                      try dsimp only
                      rw [findByPetB_snd_db, deleteRowB_pets_children,
                        findByIdB_snd_db]

/-- The demonstration state with pet 1 already linked to Ann Lee. -/
def linkedBackend : Backend :=
  ⟨⟨demoChildren, demoPets, [["Child Name", "Pet ID"], ["Ann Lee", "1"]]⟩,
   noFails, 0, 0⟩

/-- c5: deleting an existing, confirmed pet removes the Pets row at its
reported position, and on the success path changes the Owners table only
at the pet cell of the row holding the pet: that cell becomes empty, the
row and its child-name column survive, and every other Owners row keeps
its value; a subsequent search by the linked child then reports
not-linked rather than an error, and delete-pet never modifies the
Children table. -/
theorem claim_C5_delete_pet_frame
    (b : Backend) (script rest1 rest2 : List String) (pid : String)
    (p0 p1 p2 p3 : String) (ptl : List String) (pos : Int)
    (orow : Row) (m : Nat)
    (hval : validate_input validate_integer script = some (pid, rest1))
    (hdig : pyIsDigit pid = true)
    (hconf : confirm_action rest1 = some (true, rest2))
    (hfoundP : findLoop (matchId pid) b.db.pets 0
      = (some (p0 :: p1 :: p2 :: p3 :: ptl), some pos))
    (hfoundO : findLoop (matchPet pid) b.db.owners 0
      = (some orow, some ((m : Int) + 1)))
    (hf0 : b.fails b.calls = false)
    (hf1 : b.fails (b.calls + 1) = false)
    (hf2 : b.fails (b.calls + 2) = false)
    (hf3 : b.fails (b.calls + 3) = false) :
    (delete_pet b script).1 = .success
    ∧ (delete_pet b script).2.1.db.pets = eraseRowT b.db.pets pos
    ∧ (delete_pet b script).2.1.db.owners = updateCell0 b.db.owners m 1 ""
    ∧ (∀ k : Nat, k ≠ m →
        (delete_pet b script).2.1.db.owners[k]? = b.db.owners[k]?)
    ∧ (delete_pet b script).2.1.db.owners[m]? = some (setCell orow 1 "")
    ∧ rowKey? (setCell orow 1 "") = rowKey? orow
    ∧ rowPet? (setCell orow 1 "") = some ""
    ∧ (∀ (b2 : Backend) (s2 : List String),
        (delete_pet b2 s2).2.1.db.children = b2.db.children)
    ∧ ((delete_pet linkedBackend ["1", "y"]).1 = .success
        ∧ (delete_pet linkedBackend ["1", "y"]).2.1.db.owners
            = [["Child Name", "Pet ID"], ["Ann Lee", ""]]
        ∧ (search_by_child (delete_pet linkedBackend ["1", "y"]).2.1 ["1"]).1
            = .notLinked) := by
  rcases findLoop_found_parts hfoundP with ⟨kp, hkpget, hkpm, hkpq, -⟩
  have hsentP : ¬ ((some pos : Option Int) = some (-1)) := by
    intro hcc
    have := Option.some.inj hcc
    omega
  rcases findLoop_found_parts hfoundO with ⟨mo, hmoget, hmom, hmoq, -⟩
  have hmo : mo = m := by omega
  rw [hmo] at hmoget
  have hosent : ¬ ((some ((m : Int) + 1) : Option Int) = some (-1)) := by
    intro hcc
    have := Option.some.inj hcc
    omega
  rcases matchPet_shape hmom with ⟨oa, oc, ot, horow⟩
  have horne : orow ≠ [] := by
    rw [horow]
    intro hcc
    cases hcc
  have htro2 : pyTruthyRow (some orow) = true := pyTruthyRow_of_ne_nil horne
  have htroP : pyTruthyRow (some (p0 :: p1 :: p2 :: p3 :: ptl)) = true := rfl
  have hmain : (delete_pet b script).1 = .success
      ∧ (delete_pet b script).2.1.db.pets = eraseRowT b.db.pets pos
      ∧ (delete_pet b script).2.1.db.owners
          = updateCell0 b.db.owners m 1 "" := by
    unfold delete_pet
    rw [hval]
    try dsimp only
    rw [findByIdB_eq_digit _ _ _ hdig, DB.get_pets]
    try dsimp only
    rw [hf0]
    simp only [Bool.false_eq_true, if_false]
    rw [hfoundP]
    try dsimp only
    rw [if_neg hsentP]
    try dsimp only
    rw [htroP]
    simp only [Bool.not_true, Bool.false_eq_true, if_false]
    try dsimp only
    rw [hconf]
    try dsimp only
    refine ⟨?_, ?_, ?_⟩ <;>
      simp [deleteRowB_ok, updateCellB_ok, findByPetB_eq_digit, hdig, hf1,
        hf2, hf3, hfoundO, hosent, htro2, DB.get_owners, DB.get_pets,
        DB.set_pets_owners, DB.set_pets_pets, DB.set_owners_owners,
        DB.set_owners_pets, updateCellT_natSucc]
  refine ⟨hmain.1, hmain.2.1, hmain.2.2, ?_, ?_, ?_, ?_,
    fun b2 s2 => delete_pet_children b2 s2, by decide⟩
  · intro k hk
    rw [hmain.2.2, updateCell0_getElem?, if_neg hk]
  · rw [hmain.2.2, updateCell0_getElem?, if_pos rfl, hmoget]
    rfl
  · rw [horow]
    rfl
  · rw [horow]
    rfl

/-- c5 witness: the frame theorem at the linked demonstration state,
deleting pet 1 with a confirmed prompt. -/
theorem claim_C5_witness :
    (delete_pet linkedBackend ["1", "y"]).1 = .success
    ∧ (delete_pet linkedBackend ["1", "y"]).2.1.db.pets
        = eraseRowT linkedBackend.db.pets 2
    ∧ (delete_pet linkedBackend ["1", "y"]).2.1.db.owners
        = updateCell0 linkedBackend.db.owners 1 1 ""
    ∧ (∀ k : Nat, k ≠ 1 →
        (delete_pet linkedBackend ["1", "y"]).2.1.db.owners[k]?
          = linkedBackend.db.owners[k]?)
    ∧ (delete_pet linkedBackend ["1", "y"]).2.1.db.owners[1]?
        = some (setCell ["Ann Lee", "1"] 1 "")
    ∧ rowKey? (setCell ["Ann Lee", "1"] 1 "") = rowKey? ["Ann Lee", "1"]
    ∧ rowPet? (setCell ["Ann Lee", "1"] 1 "") = some ""
    ∧ (∀ (b2 : Backend) (s2 : List String),
        (delete_pet b2 s2).2.1.db.children = b2.db.children)
    ∧ ((delete_pet linkedBackend ["1", "y"]).1 = .success
        ∧ (delete_pet linkedBackend ["1", "y"]).2.1.db.owners
            = [["Child Name", "Pet ID"], ["Ann Lee", ""]]
        ∧ (search_by_child (delete_pet linkedBackend ["1", "y"]).2.1 ["1"]).1
            = .notLinked) :=
  claim_C5_delete_pet_frame linkedBackend ["1", "y"] ["y"] [] "1"
    "1" "Rex" "3" "puppy" [] 2 ["Ann Lee", "1"] 1 (by decide) (by decide)
    (by decide) (by decide) (by decide) rfl rfl rfl rfl

/-! ### Read-only calls keep the store and the write counter -/

theorem findByIdB_snd_writes (b : Backend) (s : Sheet) (p : String) :
    (findByIdB b s p).2.writes = b.writes := by
  cases hd : pyIsDigit p <;> simp [findByIdB_snd, hd]

theorem findByNameB_snd_writes (b : Backend) (s : Sheet) (n : String) :
    (findByNameB b s n).2.writes = b.writes := by
  rw [findByNameB_snd]

theorem findByPetB_snd_writes (b : Backend) (s : Sheet) (p : String) :
    (findByPetB b s p).2.writes = b.writes := by
  cases hd : pyIsDigit p <;> simp [findByPetB_snd, hd]

theorem scanAll_snd_db (b : Backend) (s : Sheet) :
    (scanAll b s).2.db = b.db := by
  rw [scanAll_eq]

theorem scanAll_snd_writes (b : Backend) (s : Sheet) :
    (scanAll b s).2.writes = b.writes := by
  rw [scanAll_eq]

/-- Search-by-child issues no write at all: the store and the write
counter are unchanged on every path. -/
theorem search_by_child_frame (b : Backend) (script : List String) :
    (search_by_child b script).2.1.db = b.db
    ∧ (search_by_child b script).2.1.writes = b.writes := by
  unfold search_by_child
  rcases hv : validate_input validate_integer script with - | ⟨cid, rest⟩
  · exact ⟨rfl, rfl⟩
  · try dsimp only
    by_cases h1 : (findByIdB b .children cid).1.2 = some (-1)
    · rw [if_pos h1]
      refine ⟨?_, ?_⟩ <;>
        simp only [findByIdB_snd_db, findByIdB_snd_writes]
    · rw [if_neg h1]
      try dsimp only
      by_cases h2 : (!pyTruthyRow (findByIdB b .children cid).1.1) = true
      · rw [if_pos h2]
        refine ⟨?_, ?_⟩ <;>
          simp only [findByIdB_snd_db, findByIdB_snd_writes]
      · rw [if_neg h2]
        try dsimp only
        rcases hc : (findByIdB b .children cid).1.1 with - |
            ⟨- | ⟨a0, - | ⟨a1, - | ⟨a2, - | ⟨a3, tl⟩⟩⟩⟩⟩
        · refine ⟨?_, ?_⟩ <;>
            simp only [findByIdB_snd_db, findByIdB_snd_writes]
        · refine ⟨?_, ?_⟩ <;>
            simp only [findByIdB_snd_db, findByIdB_snd_writes]
        · refine ⟨?_, ?_⟩ <;>
            simp only [findByIdB_snd_db, findByIdB_snd_writes]
        · refine ⟨?_, ?_⟩ <;>
            simp only [findByIdB_snd_db, findByIdB_snd_writes]
        · refine ⟨?_, ?_⟩ <;>
            simp only [findByIdB_snd_db, findByIdB_snd_writes]
        · try dsimp only
          by_cases h3 : (findByNameB (findByIdB b .children cid).2 .owners
              (a1 ++ " " ++ a2)).1.2 = some (-1)
          · rw [if_pos h3]
            refine ⟨?_, ?_⟩ <;>
              simp only [findByIdB_snd_db, findByIdB_snd_writes,
                findByNameB_snd_db, findByNameB_snd_writes]
          · rw [if_neg h3]
            try dsimp only
            rcases ho : (findByNameB (findByIdB b .children cid).2 .owners
                (a1 ++ " " ++ a2)).1.1 with - | ⟨- | ⟨o0, - | ⟨o1, otl⟩⟩⟩
            · refine ⟨?_, ?_⟩ <;>
                simp only [findByIdB_snd_db, findByIdB_snd_writes,
                  findByNameB_snd_db, findByNameB_snd_writes]
            · refine ⟨?_, ?_⟩ <;>
                simp only [findByIdB_snd_db, findByIdB_snd_writes,
                  findByNameB_snd_db, findByNameB_snd_writes]
            · refine ⟨?_, ?_⟩ <;>
                simp only [findByIdB_snd_db, findByIdB_snd_writes,
                  findByNameB_snd_db, findByNameB_snd_writes]
            · try dsimp only
              by_cases h4 : o1.isEmpty = true
              · rw [if_pos h4]
                refine ⟨?_, ?_⟩ <;>
                  simp only [findByIdB_snd_db, findByIdB_snd_writes,
                    findByNameB_snd_db, findByNameB_snd_writes]
              · rw [if_neg h4]
                try dsimp only
                by_cases h5 : (findByIdB (findByNameB
                    (findByIdB b .children cid).2 .owners
                    (a1 ++ " " ++ a2)).2 .pets o1).1.2 = some (-1)
                · rw [if_pos h5]
                  refine ⟨?_, ?_⟩ <;>
                    simp only [findByIdB_snd_db, findByIdB_snd_writes,
                      findByNameB_snd_db, findByNameB_snd_writes]
                · rw [if_neg h5]
                  try dsimp only
                  by_cases h6 : pyTruthyRow (findByIdB (findByNameB
                      (findByIdB b .children cid).2 .owners
                      (a1 ++ " " ++ a2)).2 .pets o1).1.1 = true
                  · rw [if_pos h6]
                    try dsimp only
                    rcases hp : (findByIdB (findByNameB
                        (findByIdB b .children cid).2 .owners
                        (a1 ++ " " ++ a2)).2 .pets o1).1.1 with - |
                        ⟨- | ⟨p0, - | ⟨p1, - | ⟨p2, - | ⟨p3, ptl⟩⟩⟩⟩⟩ <;>
                      refine ⟨?_, ?_⟩ <;>
                        simp only [findByIdB_snd_db, findByIdB_snd_writes,
                          findByNameB_snd_db, findByNameB_snd_writes]
                  · rw [if_neg h6]
                    refine ⟨?_, ?_⟩ <;>
                      simp only [findByIdB_snd_db, findByIdB_snd_writes,
                        findByNameB_snd_db, findByNameB_snd_writes]

/-- Search-by-pet issues no write at all: the store and the write
counter are unchanged on every path. -/
theorem search_by_pet_frame (b : Backend) (script : List String) :
    (search_by_pet b script).2.1.db = b.db
    ∧ (search_by_pet b script).2.1.writes = b.writes := by
  unfold search_by_pet
  rcases hv : validate_input validate_integer script with - | ⟨pid, rest⟩
  · exact ⟨rfl, rfl⟩
  · try dsimp only
    by_cases h1 : (findByIdB b .pets pid).1.2 = some (-1)
    · rw [if_pos h1]
      refine ⟨?_, ?_⟩ <;>
        simp only [findByIdB_snd_db, findByIdB_snd_writes]
    · rw [if_neg h1]
      try dsimp only
      by_cases h2 : (!pyTruthyRow (findByIdB b .pets pid).1.1) = true
      · rw [if_pos h2]
        refine ⟨?_, ?_⟩ <;>
          simp only [findByIdB_snd_db, findByIdB_snd_writes]
      · rw [if_neg h2]
        try dsimp only
        rcases hc : (findByIdB b .pets pid).1.1 with - |
            ⟨- | ⟨a0, - | ⟨a1, - | ⟨a2, - | ⟨a3, tl⟩⟩⟩⟩⟩
        · refine ⟨?_, ?_⟩ <;>
            simp only [findByIdB_snd_db, findByIdB_snd_writes]
        · refine ⟨?_, ?_⟩ <;>
            simp only [findByIdB_snd_db, findByIdB_snd_writes]
        · refine ⟨?_, ?_⟩ <;>
            simp only [findByIdB_snd_db, findByIdB_snd_writes]
        · refine ⟨?_, ?_⟩ <;>
            simp only [findByIdB_snd_db, findByIdB_snd_writes]
        · refine ⟨?_, ?_⟩ <;>
            simp only [findByIdB_snd_db, findByIdB_snd_writes]
        · try dsimp only
          by_cases h3 : (findByPetB (findByIdB b .pets pid).2 .owners
              pid).1.2 = some (-1)
          · rw [if_pos h3]
            refine ⟨?_, ?_⟩ <;>
              simp only [findByIdB_snd_db, findByIdB_snd_writes,
                findByPetB_snd_db, findByPetB_snd_writes]
          · rw [if_neg h3]
            try dsimp only
            by_cases h4 : pyTruthyRow (findByPetB (findByIdB b .pets pid).2
                .owners pid).1.1 = true
            · rw [if_pos h4]
              try dsimp only
              rcases ho : (findByPetB (findByIdB b .pets pid).2 .owners
                  pid).1.1 with - | ⟨- | ⟨c0, ctl⟩⟩
              · refine ⟨?_, ?_⟩ <;>
                  simp only [findByIdB_snd_db, findByIdB_snd_writes,
                    findByPetB_snd_db, findByPetB_snd_writes]
              · refine ⟨?_, ?_⟩ <;>
                  simp only [findByIdB_snd_db, findByIdB_snd_writes,
                    findByPetB_snd_db, findByPetB_snd_writes]
              · try dsimp only
                rcases hsc : (scanAll (findByPetB (findByIdB b .pets pid).2
                    .owners pid).2 .children).1 with - | allc
                · refine ⟨?_, ?_⟩ <;>
                    simp only [findByIdB_snd_db, findByIdB_snd_writes,
                      findByPetB_snd_db, findByPetB_snd_writes,
                      scanAll_snd_db, scanAll_snd_writes]
                · try dsimp only
                  rcases hk : searchKids c0 (allc.drop 1) with krow | - | -
                  · try dsimp only
                    rcases krow with - | ⟨k0, - | ⟨k1, - | ⟨k2, - | ⟨k3, ktl⟩⟩⟩⟩ <;>
                      refine ⟨?_, ?_⟩ <;>
                        simp only [findByIdB_snd_db, findByIdB_snd_writes,
                          findByPetB_snd_db, findByPetB_snd_writes,
                          scanAll_snd_db, scanAll_snd_writes]
                  · refine ⟨?_, ?_⟩ <;>
                      simp only [findByIdB_snd_db, findByIdB_snd_writes,
                        findByPetB_snd_db, findByPetB_snd_writes,
                        scanAll_snd_db, scanAll_snd_writes]
                  · refine ⟨?_, ?_⟩ <;>
                      simp only [findByIdB_snd_db, findByIdB_snd_writes,
                        findByPetB_snd_db, findByPetB_snd_writes,
                        scanAll_snd_db, scanAll_snd_writes]
            · rw [if_neg h4]
              refine ⟨?_, ?_⟩ <;>
                simp only [findByIdB_snd_db, findByIdB_snd_writes,
                  findByPetB_snd_db, findByPetB_snd_writes]

/-- A backend whose third call (call number 2: the pre-confirmation
existing-link lookup of link) raises, every other call succeeding. -/
def c3Backend : Backend :=
  ⟨⟨[["ID", "First Name", "Last Name", "Age"], ["1", "A", "B", "10"]],
    [["ID", "Nickname", "Age", "Type"], ["1", "R", "3", "puppy"]],
    [["Child Name", "Pet ID"]]⟩, fun k => k == 2, 0, 0⟩

/-- c3 counterexample: linking child 1 to pet 1 with the backend whose
call number 2 raises. That call is the pre-confirmation existing-link
lookup by child name, and it reports the backend-failure sentinel
(none, -1); yet the operation does not abort: it runs to completion,
reports success and issues a write, because the caller discards the
sentinel position of that lookup. -/
theorem claim_C3_counterexample :
    (findByNameB ⟨c3Backend.db, c3Backend.fails, 2, 0⟩ .owners "A B").1
      = (none, some (-1))
    ∧ (link_child_pet c3Backend ["1", "1", "y"]).1 = .success
    ∧ (link_child_pet c3Backend ["1", "1", "y"]).2.1.writes = 1 := by
  decide

/-- c3 (amended): a locator call that reports the backend-failure
sentinel aborts the enclosing operation with no subsequent write where
the caller tests the sentinel: both searches leave the store and the
write counter unchanged on every path; a sentinel from the primary
lookup of delete-child, delete-pet or link, or from the write-phase
child-name lookup of link, yields the find-error outcome with the store
and the write counter unchanged. The two pre-confirmation lookups of
link are the exception the original sentence wrongly included: their
sentinel is discarded, the phase reports go, and the operation
continues. -/
theorem claim_C3_backend_failure_aborts :
    (∀ (b : Backend) (script : List String),
        (search_by_child b script).2.1.db = b.db
        ∧ (search_by_child b script).2.1.writes = b.writes)
    ∧ (∀ (b : Backend) (script : List String),
        (search_by_pet b script).2.1.db = b.db
        ∧ (search_by_pet b script).2.1.writes = b.writes)
    ∧ (∀ (b : Backend) (script rest1 : List String) (cid : String),
        validate_input validate_integer script = some (cid, rest1) →
        (findByIdB b .children cid).1.2 = some (-1) →
        (delete_child b script).1 = .findError
        ∧ (delete_child b script).2.1.db = b.db
        ∧ (delete_child b script).2.1.writes = b.writes)
    ∧ (∀ (b : Backend) (script rest1 : List String) (pid : String),
        validate_input validate_integer script = some (pid, rest1) →
        (findByIdB b .pets pid).1.2 = some (-1) →
        (delete_pet b script).1 = .findError
        ∧ (delete_pet b script).2.1.db = b.db
        ∧ (delete_pet b script).2.1.writes = b.writes)
    ∧ (∀ (b : Backend) (line : String) (rest : List String),
        (pyStrip line).isEmpty = false →
        validate_integer (pyStrip line) = true →
        (findByIdB b .children (pyStrip line)).1.2 = some (-1) →
        (link_child_pet b (line :: rest)).1 = .findError
        ∧ (link_child_pet b (line :: rest)).2.1.db = b.db
        ∧ (link_child_pet b (line :: rest)).2.1.writes = b.writes)
    ∧ (∀ (b : Backend) (name pid : String),
        (findByNameB b .owners name).1.2 = some (-1) →
        (linkWritePhase b name pid).1 = .findError
        ∧ (linkWritePhase b name pid).2.db = b.db
        ∧ (linkWritePhase b name pid).2.writes = b.writes)
    ∧ (∀ (b : Backend) (name pid : String) (script : List String),
        (findByNameB b .owners name).1.1 = none →
        (linkPrecheck b name pid script).1 = .go) := by
  refine ⟨search_by_child_frame, search_by_pet_frame, ?_, ?_, ?_, ?_, ?_⟩
  · intro b script rest1 cid hval hsent
    unfold delete_child
    rw [hval]
    try dsimp only
    rw [if_pos hsent]
    exact ⟨rfl, findByIdB_snd_db b .children cid,
      findByIdB_snd_writes b .children cid⟩
  · intro b script rest1 pid hval hsent
    unfold delete_pet
    rw [hval]
    try dsimp only
    rw [if_pos hsent]
    exact ⟨rfl, findByIdB_snd_db b .pets pid,
      findByIdB_snd_writes b .pets pid⟩
  · intro b line rest hne hvi hsent
    have hres : linkResolve .children b (line :: rest)
        = (.aborted .findError, (findByIdB b .children (pyStrip line)).2,
           rest) := by
      rw [linkResolve]
      rw [hne]
      simp only [Bool.false_eq_true, if_false]
      rw [if_pos hvi]
      rcases hX : findByIdB b .children (pyStrip line) with ⟨⟨R1, I1⟩, X2⟩
      rw [hX] at hsent
      dsimp only at hsent
      try dsimp only
      rw [if_pos hsent]
    unfold link_child_pet
    rw [hres]
    try dsimp only
    exact ⟨rfl, findByIdB_snd_db b .children (pyStrip line),
      findByIdB_snd_writes b .children (pyStrip line)⟩
  · intro b name pid hsent
    unfold linkWritePhase
    try dsimp only
    rw [if_pos hsent]
    exact ⟨rfl, findByNameB_snd_db b .owners name,
      findByNameB_snd_writes b .owners name⟩
  · intro b name pid script hnone
    unfold linkPrecheck
    rcases hX : findByNameB b .owners name with ⟨⟨R1, I1⟩, X2⟩
    rw [hX] at hnone
    dsimp only at hnone
    subst hnone
    try dsimp only
    rw [linkPetClaimCheck_parts]
